import Mathlib

/-!
Verification development for the PDF IOC extractor ("pie").

The development shallowly embeds the indicator-extraction and
classification engine of `pie.py` / `utils/helpers.py`:

* a small backtracking regular-expression engine (continuation-passing,
  fuel-bounded) mirroring Python `re` semantics for the constructs the
  source patterns use: character classes, greedy and lazy quantifiers,
  ordered alternation, anchors, word boundaries, lookahead and
  single-character lookbehind, with `re.finditer`-style scanning;
* faithful translations of every pattern in `Helpers.regex`;
* the aggregation pipeline of `PDFWorker.get_patterns` /
  `PDFWorker.detect_language` (deduplication, sorting, the DOMAIN
  validity filter, the running counter and the final "no IOCs" signal);
* the TLDs-file freshness / download logic of `PDFWorker.tlds_file`,
  `PDFWorker.check_tlds_file_age` and `PDFWorker.valid_tlds`, with the
  file system and the network modelled as explicit state.

Machine strings are lists of `Char`; code points are handled as `Nat`.
Python's Unicode-aware `str.lower`, `\w`, `\d` and `\s` are modelled on
the alphabets that actually occur in this development (ASCII plus the
Cyrillic, Hebrew, Arabic and CJK ranges used by the language rules).
-/

/-- Code points Python `\s` matches, restricted to ASCII whitespace. -/
def spaceCodes : List Nat := [9, 10, 11, 12, 13, 32]

/-- Whitespace test on a code point. -/
def isSpaceCode (n : Nat) : Bool := n ∈ spaceCodes

/-- Word-character test (`\w`) on a code point: ASCII alphanumerics and
underscore, plus the non-Latin letter ranges used by the language rules
(Cyrillic, Hebrew, Arabic, CJK blocks). -/
def isWordCode (n : Nat) : Bool :=
  (48 ≤ n ∧ n ≤ 57) ∨ (65 ≤ n ∧ n ≤ 90) ∨ (97 ≤ n ∧ n ≤ 122) ∨ n = 95 ∨
  (0x400 ≤ n ∧ n ≤ 0x4FF) ∨ (0x590 ≤ n ∧ n ≤ 0x5FF) ∨ (0x600 ≤ n ∧ n ≤ 0x6FF) ∨
  (0x3400 ≤ n ∧ n ≤ 0x4DBF) ∨ (0x4E00 ≤ n ∧ n ≤ 0x9FFF) ∨ (0xF900 ≤ n ∧ n ≤ 0xFAFF)

/-- Digit test (`\d`) on a code point: ASCII digits plus the
Arabic-Indic digit ranges (the only non-ASCII digits relevant here). -/
def isDigitCode (n : Nat) : Bool :=
  (48 ≤ n ∧ n ≤ 57) ∨ (0x660 ≤ n ∧ n ≤ 0x669) ∨ (0x6F0 ≤ n ∧ n ≤ 0x6F9)

/-- One item of a regular-expression character class. -/
inductive ClassItem where
  | range : Nat → Nat → ClassItem
  | digit : ClassItem
  | word : ClassItem
  | space : ClassItem
  | nword : ClassItem
  | nspace : ClassItem
deriving DecidableEq, Repr

/-- Does the class item accept the code point? -/
def itemHas (n : Nat) : ClassItem → Bool
  | .range a b => a ≤ n ∧ n ≤ b
  | .digit => isDigitCode n
  | .word => isWordCode n
  | .space => isSpaceCode n
  | .nword => !isWordCode n
  | .nspace => !isSpaceCode n

/-- Membership in a (possibly negated) character class. -/
def inCls (negated : Bool) (items : List ClassItem) (n : Nat) : Bool :=
  if negated then !(items.any (itemHas n)) else items.any (itemHas n)

/-- Class item for a single character. -/
def cone (c : Char) : ClassItem := .range c.toNat c.toNat

/-- Class item for a character range given by two characters. -/
def crng (a b : Char) : ClassItem := .range a.toNat b.toNat

/-- Regular-expression abstract syntax, covering the constructs used by
the source's patterns. Alternation is ordered (Python backtracking
semantics); `star` is greedy, `lazyStar` is lazy; `bol`/`eol` are the
`^`/`$` anchors (no MULTILINE flag appears in `helpers.py`); `nla`/`pla`
are negative/positive lookahead; `nlb`/`plb` are negative/positive
lookbehind restricted to a single-character class, the only lookbehind
form the source uses. -/
inductive RE where
  | eps : RE
  | cls : Bool → List ClassItem → RE
  | cat : RE → RE → RE
  | alt : RE → RE → RE
  | star : RE → RE
  | lazyStar : RE → RE
  | bol : RE
  | eol : RE
  | wordB : RE
  | nla : RE → RE
  | pla : RE → RE
  | nlb : Bool → List ClassItem → RE
  | plb : Bool → List ClassItem → RE
deriving DecidableEq, Repr

/-- Greedy `?`. -/
def copt (r : RE) : RE := .alt r .eps

/-- Greedy `+`. -/
def plus (r : RE) : RE := .cat r (.star r)

/-- Lazy `+?`. -/
def lazyPlus (r : RE) : RE := .cat r (.lazyStar r)

/-- Exactly `n` copies (`{n}`). -/
def repN : Nat → RE → RE
  | 0, _ => .eps
  | n + 1, r => .cat r (repN n r)

/-- Greedily up to `n` copies (used to desugar `{lo,hi}`). -/
def upTo : Nat → RE → RE
  | 0, _ => .eps
  | n + 1, r => .alt (.cat r (upTo n r)) .eps

/-- Counted repetition `{lo,hi}`. -/
def rep (lo hi : Nat) (r : RE) : RE := .cat (repN lo r) (upTo (hi - lo) r)

/-- Literal string. -/
def lit (s : String) : RE :=
  s.data.foldr (fun c acc => .cat (.cls false [cone c]) acc) .eps

/-- `.` — any character except a newline. -/
def cdot : RE := .cls true [cone '\n']

/-- Non-negated character class. -/
def cls1 (items : List ClassItem) : RE := .cls false items

/-- Code point at a position of the text, if in range. -/
def codeAt (text : List Char) (i : Nat) : Option Nat :=
  (text.get? i).map Char.toNat

/-- Is the character at the position a word character (out of range
counts as a non-word position, as in Python's `\b`)? -/
def isWordAt (text : List Char) (i : Nat) : Bool :=
  match codeAt text i with
  | some n => isWordCode n
  | none => false

/-- Word character strictly before the position. -/
def prevWordAt (text : List Char) (pos : Nat) : Bool :=
  match pos with
  | 0 => false
  | p + 1 => isWordAt text p

/-- Does the `$` anchor hold at the position (end of text, or just
before a terminating newline)? -/
def eolAt (text : List Char) (pos : Nat) : Bool :=
  pos = text.length ∨ (pos + 1 = text.length ∧ codeAt text pos = some 10)

/-- Does the single-character lookbehind class accept the character just
before the position (no previous character means no match)? -/
def lbHolds (neg : Bool) (items : List ClassItem) (text : List Char) (pos : Nat) : Bool :=
  match pos with
  | 0 => false
  | p + 1 =>
    match codeAt text p with
    | some n => inCls neg items n
    | none => false

/-- The backtracking matcher, continuation-passing style. `matchK fuel r
text pos k` explores the ways `r` can match `text` starting at `pos`, in
Python's backtracking priority order, calling the continuation `k` on
each candidate end position until `k` succeeds. Greedy `star` tries the
longest extension first; an iteration of a quantifier that consumes
nothing terminates the loop (as in Python's `re`). The fuel only bounds
recursion depth; it is chosen large enough by the callers below. -/
def matchK : Nat → RE → List Char → Nat → (Nat → Option Nat) → Option Nat
  | 0, _, _, _, _ => none
  | _ + 1, .eps, _, pos, k => k pos
  | _ + 1, .cls neg items, text, pos, k =>
    match codeAt text pos with
    | none => none
    | some n => if inCls neg items n then k (pos + 1) else none
  | f + 1, .cat a b, text, pos, k =>
    matchK f a text pos (fun p => matchK f b text p k)
  | f + 1, .alt a b, text, pos, k =>
    match matchK f a text pos k with
    | some v => some v
    | none => matchK f b text pos k
  | f + 1, .star b, text, pos, k =>
    match matchK f b text pos
        (fun p => if pos < p then matchK f (.star b) text p k else none) with
    | some v => some v
    | none => k pos
  | f + 1, .lazyStar b, text, pos, k =>
    match k pos with
    | some v => some v
    | none =>
      matchK f b text pos
        (fun p => if pos < p then matchK f (.lazyStar b) text p k else none)
  | _ + 1, .bol, _, pos, k => if pos = 0 then k pos else none
  | _ + 1, .eol, text, pos, k => if eolAt text pos then k pos else none
  | _ + 1, .wordB, text, pos, k =>
    if prevWordAt text pos ≠ isWordAt text pos then k pos else none
  | f + 1, .nla a, text, pos, k =>
    match matchK f a text pos some with
    | some _ => none
    | none => k pos
  | f + 1, .pla a, text, pos, k =>
    match matchK f a text pos some with
    | some _ => k pos
    | none => none
  | _ + 1, .nlb neg items, text, pos, k =>
    if lbHolds neg items text pos then none else k pos
  | _ + 1, .plb neg items, text, pos, k =>
    if lbHolds neg items text pos then k pos else none

/-- Structural size of a regular expression, used for the fuel bound. -/
def reSize : RE → Nat
  | .eps => 1
  | .cls _ _ => 1
  | .cat a b => reSize a + reSize b + 1
  | .alt a b => reSize a + reSize b + 1
  | .star b => reSize b + 1
  | .lazyStar b => reSize b + 1
  | .bol => 1
  | .eol => 1
  | .wordB => 1
  | .nla a => reSize a + 1
  | .pla a => reSize a + 1
  | .nlb _ _ => 1
  | .plb _ _ => 1

/-- Fuel budget: generously above the recursion depth any match attempt
on the given text can need. -/
def fuelFor (r : RE) (n : Nat) : Nat := (reSize r + 1) * (n + 2) + 1

/-- First (leftmost-biased, backtracking order) match of `r` at `pos`,
returning its end position — the model of a successful `regex.match` at
a fixed position. -/
def matchAt (r : RE) (text : List Char) (pos : Nat) : Option Nat :=
  matchK (fuelFor r text.length) r text pos some

/-- Scanning loop of `re.finditer`: try each start position left to
right; on a match continue at its end (an empty match advances by one
position, as in Python 3.7+). -/
def findAllAux (r : RE) (text : List Char) : Nat → Nat → List (List Char)
  | 0, _ => []
  | f + 1, pos =>
    if pos > text.length then []
    else
      match matchAt r text pos with
      | some e =>
        ((text.drop pos).take (e - pos)) ::
          findAllAux r text f (if pos < e then e else pos + 1)
      | none => findAllAux r text f (pos + 1)

/-- All non-overlapping matches of `r` in `s`, in document order — the
model of `[m.group() for m in re.finditer(r, s)]`. -/
def findAll (r : RE) (s : String) : List String :=
  (findAllAux r s.data (s.data.length + 2) 0).map (fun l => String.mk l)

/-!
Pattern translations. Each definition below transcribes one entry of the
`patterns` dictionary in `Helpers.regex` (src/utils/helpers.py). Class
items appear in source order; `\d`/`\w`/`\s` become the dedicated class
items, explicit ranges stay ranges. Note the Python parsing quirks kept
faithfully: inside a class, a `-` whose successor is not `-` is a
literal, and `\uXXXX` consumes exactly four hex digits (relevant in
`han-unification`, where e.g. ` 0-⩭F` denotes the literal
U+2000 followed by the range `0`–U+2A6D followed by the literal `F`).
-/

namespace Patterns

/-- Class `[A-Fa-f0-9]` used by the hash rules. -/
def hexCls : RE := cls1 [crng 'A' 'F', crng 'a' 'f', crng '0' '9']

/-- Rule `languages.arabic`: `[؀-ۿژپچگ]`. -/
def arabic : RE := cls1 [.range 0x600 0x6FF, .range 0x698 0x698, .range 0x67E 0x67E,
  .range 0x686 0x686, .range 0x6AF 0x6AF]

/-- Rule `languages.chinese`: `[一-鿿]`. -/
def chinese : RE := cls1 [.range 0x4E00 0x9FFF]

/-- Rule `languages.kanji`: `[一-鿿㐀-䶿豈-﫿]`. -/
def kanji : RE := cls1 [.range 0x4E00 0x9FFF, .range 0x3400 0x4DBF, .range 0xF900 0xFAFF]

/-- Rule `languages.han-unification` (`^[…]+$`), with the `\uXXXX`
four-digit parsing quirk applied to the five-digit escapes. -/
def han_unification : RE :=
  .cat .bol (.cat (plus (cls1 [.range 0x4E00 0x9FFF, .range 0x3400 0x4DBF,
    .range 0x2000 0x2000, .range 0x30 0x2A6D, cone 'F',
    .range 0x2A70 0x2A70, .range 0x30 0x2B73, cone 'F',
    .range 0x2B74 0x2B74, .range 0x30 0x2B81, cone 'F',
    .range 0x2B82 0x2B82, .range 0x30 0x2CEA, cone 'F',
    .range 0x2CEB 0x2CEB, .range 0x30 0x2EBE, cone 'F',
    .range 0x3000 0x3000, .range 0x30 0x3134, cone 'F',
    .range 0xF900 0xFAFF, .range 0x2E80 0x2EFF, .range 0x31C0 0x31EF,
    .range 0x3000 0x303F, .range 0x2FF0 0x2FFF, .range 0x3300 0x33FF,
    .range 0xFE30 0xFE4F, .range 0xF900 0xFAFF,
    .range 0x2F80 0x2F80, .range 0x30 0x2FA1, cone 'F',
    .range 0x3200 0x32FF,
    .range 0x1F20 0x1F20, .range 0x30 0x1F2F, cone 'F',
    .range 0x2F00 0x2FDF])) .eol)

/-- Rule `languages.farsi` — textually identical to `languages.arabic`. -/
def farsi : RE := cls1 [.range 0x600 0x6FF, .range 0x698 0x698, .range 0x67E 0x67E,
  .range 0x686 0x686, .range 0x6AF 0x6AF]

/-- Rule `languages.cyrillic`: `[Ѐ-ӿ]`. -/
def cyrillic : RE := cls1 [.range 0x400 0x4FF]

/-- Rule `languages.hebrew`: `[֐-׿שׁ-פֿ]`. -/
def hebrew : RE := cls1 [.range 0x590 0x5FF, .range 0xFB2A 0xFB4E]

/-- Rule `languages.devanagari`: `[ऀ-॔]`. -/
def devanagari : RE := cls1 [.range 0x900 0x954]

/-- Rule `hashes.md5`: `\b[A-Fa-f0-9]{32}\b`. -/
def md5 : RE := .cat .wordB (.cat (repN 32 hexCls) .wordB)

/-- Rule `hashes.sha1`: `\b[A-Fa-f0-9]{40}\b`. -/
def sha1 : RE := .cat .wordB (.cat (repN 40 hexCls) .wordB)

/-- Rule `hashes.sha256`: `\b[A-Fa-f0-9]{64}\b`. -/
def sha256 : RE := .cat .wordB (.cat (repN 64 hexCls) .wordB)

/-- Rule `hashes.sha512`: `\b[A-Fa-f0-9]{128}\b`. -/
def sha512 : RE := .cat .wordB (.cat (repN 128 hexCls) .wordB)

/-- One octet alternative `25[0-5]|2[0-4][0-9]|[01]?[0-9][0-9]?` of the
ipv4 rule. -/
def ipv4Octet : RE :=
  .alt (.cat (lit "25") (cls1 [crng '0' '5']))
    (.alt (.cat (lit "2") (.cat (cls1 [crng '0' '4']) (cls1 [crng '0' '9'])))
      (.cat (copt (cls1 [cone '0', cone '1']))
        (.cat (cls1 [crng '0' '9']) (copt (cls1 [crng '0' '9'])))))

/-- Rule `net-related.ipv4`:
`(((?![0])(25[0-5]|2[0-4][0-9]|[01]?[0-9][0-9]?)(\[\.\]|\.))){3}(25[0-5]|2[0-4][0-9]|[01]?[0-9][0-9]?)`. -/
def ipv4 : RE :=
  .cat (repN 3 (.cat (.nla (cls1 [cone '0']))
    (.cat ipv4Octet (.alt (lit "[.]") (lit "."))))) ipv4Octet

/-- Rule `net-related.mac`: `^[a-fA-F0-9]2(:[a-fA-F0-9]2)5$` — note the
`2` and `5` are literal characters, not repetition counts. -/
def mac : RE :=
  .cat .bol (.cat (cls1 [crng 'a' 'f', crng 'A' 'F', crng '0' '9']) (.cat (lit "2")
    (.cat (.cat (lit ":") (.cat (cls1 [crng 'a' 'f', crng 'A' 'F', crng '0' '9']) (lit "2")))
      (.cat (lit "5") .eol))))

/-- Inner expression of the domain rule's negative lookahead
`[a-z-]*.[i\.e]$|[e\.g]$`. -/
def domainLookInner : RE :=
  .alt (.cat (.star (cls1 [crng 'a' 'z', cone '-']))
      (.cat cdot (.cat (cls1 [cone 'i', cone '.', cone 'e']) .eol)))
    (.cat (cls1 [cone 'e', cone '.', cone 'g']) .eol)

/-- Rule `web-related.domain`:
`([A-Za-z0-9]+(?:[\-|\.|][A-Za-z0-9]+)*(?:\[\.\]|\.)(?![a-z-]*.[i\.e]$|[e\.g]$)(?:[a-z]{2,4})\b|(?:\[\.\][a-z]{2,4})(?!@)$)`. -/
def domain : RE :=
  .alt
    (.cat (plus (cls1 [crng 'A' 'Z', crng 'a' 'z', crng '0' '9']))
      (.cat (.star (.cat (cls1 [cone '-', cone '|', cone '.', cone '|'])
          (plus (cls1 [crng 'A' 'Z', crng 'a' 'z', crng '0' '9']))))
        (.cat (.alt (lit "[.]") (lit "."))
          (.cat (.nla domainLookInner)
            (.cat (rep 2 4 (cls1 [crng 'a' 'z'])) .wordB)))))
    (.cat (.cat (lit "[.]") (rep 2 4 (cls1 [crng 'a' 'z'])))
      (.cat (.nla (cls1 [cone '@'])) .eol))

/-- Rule `web-related.email`:
`([a-zA-Z0-9_.+-]+(\[@\]|@)(?!fireeye)[a-zA-Z0-9-.]+(\.|\[\.\])(?![a-z-]+\.gov|gov)([a-zA-Z0-9-.]{2,6}\b))`. -/
def email : RE :=
  .cat (plus (cls1 [crng 'a' 'z', crng 'A' 'Z', crng '0' '9', cone '_', cone '.',
      cone '+', cone '-']))
    (.cat (.alt (lit "[@]") (lit "@"))
      (.cat (.nla (lit "fireeye"))
        (.cat (plus (cls1 [crng 'a' 'z', crng 'A' 'Z', crng '0' '9', cone '-', cone '.']))
          (.cat (.alt (lit ".") (lit "[.]"))
            (.cat (.nla (.alt (.cat (plus (cls1 [crng 'a' 'z', cone '-'])) (lit ".gov"))
                (lit "gov")))
              (.cat (rep 2 6 (cls1 [crng 'a' 'z', crng 'A' 'Z', crng '0' '9', cone '-',
                  cone '.']))
                .wordB))))))

/-- Rule `web-related.url`:
`(https?:\/\/(www\.)?[-a-zA-Z0-9@:%._\+~#=]{1,256}\.[a-zA-Z0-9()]{1,6}\b([-a-zA-Z0-9@:%_\+.~#?&\/\/=\*]*))`. -/
def url : RE :=
  .cat (lit "http") (.cat (copt (lit "s")) (.cat (lit "://")
    (.cat (copt (lit "www."))
      (.cat (rep 1 256 (cls1 [cone '-', crng 'a' 'z', crng 'A' 'Z', crng '0' '9', cone '@',
          cone ':', cone '%', cone '.', cone '_', cone '+', cone '~', cone '#', cone '=']))
        (.cat (lit ".")
          (.cat (rep 1 6 (cls1 [crng 'a' 'z', crng 'A' 'Z', crng '0' '9', cone '(', cone ')']))
            (.cat .wordB
              (.star (cls1 [cone '-', crng 'a' 'z', crng 'A' 'Z', crng '0' '9', cone '@',
                cone ':', cone '%', cone '_', cone '+', cone '.', cone '~', cone '#',
                cone '?', cone '&', cone '/', cone '/', cone '=', cone '*'])))))))))

/-- Leading class `[^\s|\d\W*]` of the webfile/archive/image/office
rules. -/
def fnameHeadCls : RE := RE.cls true [.space, cone '|', .digit, .nword, cone '*']

/-- Middle class `[a-z-A-Z0-9\-\_ ]` of those rules (literal `-` before
`A-Z`, per Python class parsing). -/
def fnameMidCls : RE :=
  cls1 [crng 'a' 'z', cone '-', crng 'A' 'Z', crng '0' '9', cone '-', cone '_', cone ' ']

/-- Rule `web-related.webfile`:
`(([^\s|\d\W*])+[a-z-A-Z0-9\-\_ ]+(\.|\[\.\])(hta|html|htm|htmls|java|jsp|js|php|asp$|aspx))`. -/
def webfile : RE :=
  .cat (plus fnameHeadCls) (.cat (plus fnameMidCls)
    (.cat (.alt (lit ".") (lit "[.]"))
      (.alt (lit "hta") (.alt (lit "html") (.alt (lit "htm") (.alt (lit "htmls")
        (.alt (lit "java") (.alt (lit "jsp") (.alt (lit "js") (.alt (lit "php")
          (.alt (.cat (lit "asp") .eol) (lit "aspx"))))))))))))

/-- Rule `file-related.archive`:
`(([^\s|\d\W*])+[a-z-A-Z0-9\-\_ ]+(\.|\[\.\])(zip|7z|jar|gz|rar|xz|tar|tar\.gz))`. -/
def archive : RE :=
  .cat (plus fnameHeadCls) (.cat (plus fnameMidCls)
    (.cat (.alt (lit ".") (lit "[.]"))
      (.alt (lit "zip") (.alt (lit "7z") (.alt (lit "jar") (.alt (lit "gz")
        (.alt (lit "rar") (.alt (lit "xz") (.alt (lit "tar") (lit "tar.gz"))))))))))

/-- Rule `file-related.binary`:
`(([^\s|\W])+([a-z-A-Z0-9\-\_]|[一-鿿]|[Ѐ-ӿ])+((?:\.exe)|(?:\.msi)|(?:\.dll)|(?:\.bin)))`. -/
def binary : RE :=
  .cat (plus (RE.cls true [.space, cone '|', .nword]))
    (.cat (plus (.alt (cls1 [crng 'a' 'z', cone '-', crng 'A' 'Z', crng '0' '9', cone '-',
        cone '_'])
      (.alt (cls1 [.range 0x4E00 0x9FFF]) (cls1 [.range 0x400 0x4FF]))))
      (.alt (lit ".exe") (.alt (lit ".msi") (.alt (lit ".dll") (lit ".bin")))))

/-- Rule `file-related.env_var`: `(\%+[a-zA-Z0-9]+\%.*[^\"])`. -/
def env_var : RE :=
  .cat (plus (cls1 [cone '%']))
    (.cat (plus (cls1 [crng 'a' 'z', crng 'A' 'Z', crng '0' '9']))
      (.cat (lit "%") (.cat (.star cdot) (RE.cls true [cone '"']))))

/-- Rule `file-related.image`:
`(([^\s|\d\W*])+[a-z-A-Z0-9\-\_ ]+(\.|\[\.\])(bmp|gif|jpg|jpeg|png|svg|tiff|wepb))`. -/
def image : RE :=
  .cat (plus fnameHeadCls) (.cat (plus fnameMidCls)
    (.cat (.alt (lit ".") (lit "[.]"))
      (.alt (lit "bmp") (.alt (lit "gif") (.alt (lit "jpg") (.alt (lit "jpeg")
        (.alt (lit "png") (.alt (lit "svg") (.alt (lit "tiff") (lit "wepb"))))))))))

/-- Rule `file-related.misc_file`:
`(([^\s|\W])+([a-z-A-Z0-9\-\_])+((?:\.txt)|(?:\.csv)))`. -/
def misc_file : RE :=
  .cat (plus (RE.cls true [.space, cone '|', .nword]))
    (.cat (plus (cls1 [crng 'a' 'z', cone '-', crng 'A' 'Z', crng '0' '9', cone '-', cone '_']))
      (.alt (lit ".txt") (lit ".csv")))

/-- Rule `file-related.office`:
`(([^\s|\d\W*])+[a-z-A-Z0-9\-\_ ]+\.(doc|docx|xls|xlsx|pdf))`. -/
def office : RE :=
  .cat (plus fnameHeadCls) (.cat (plus fnameMidCls)
    (.cat (lit ".")
      (.alt (lit "doc") (.alt (lit "docx") (.alt (lit "xls") (.alt (lit "xlsx")
        (lit "pdf")))))))

/-- Rule `file-related.script`:
`(([^\s|(\"])+[a-z-A-Z0-9\-\_]+((?:\.vbs)|(?:\.sh)|(?:\.bat)|(?:\.ps1)|(?:\.py)))`. -/
def script : RE :=
  .cat (plus (RE.cls true [.space, cone '|', cone '(', cone '"']))
    (.cat (plus (cls1 [crng 'a' 'z', cone '-', crng 'A' 'Z', crng '0' '9', cone '-', cone '_']))
      (.alt (lit ".vbs") (.alt (lit ".sh") (.alt (lit ".bat") (.alt (lit ".ps1")
        (lit ".py"))))))

/-- Rule `file-related.windir`: `\b[a-zA-Z]{1}:\\?\\(?:\w+\\?).+$`. -/
def windir : RE :=
  .cat .wordB (.cat (repN 1 (cls1 [crng 'a' 'z', crng 'A' 'Z']))
    (.cat (lit ":") (.cat (copt (lit "\\")) (.cat (lit "\\")
      (.cat (.cat (plus (cls1 [.word])) (copt (lit "\\")))
        (.cat (plus cdot) .eol))))))

/-- Rule `misc.btc`: `(^[13][a-km-zA-HJ-NP-Z1-9]{25,34}$)`. -/
def btc : RE :=
  .cat .bol (.cat (cls1 [cone '1', cone '3'])
    (.cat (rep 25 34 (cls1 [crng 'a' 'k', crng 'm' 'z', crng 'A' 'H', crng 'J' 'N',
      crng 'P' 'Z', crng '1' '9'])) .eol))

/-- Class `[A-Za-z0-9+/]` of the base64 rule. -/
def b64Cls : RE := cls1 [crng 'A' 'Z', crng 'a' 'z', crng '0' '9', cone '+', cone '/']

/-- Rule `misc.base64`:
`(^(?:[A-Za-z0-9+/]{4})*(?:[A-Za-z0-9+/]{2}==|[A-Za-z0-9+/]{3}=|[A-Za-z0-9+/]{4})$)`. -/
def base64 : RE :=
  .cat .bol (.cat (.star (repN 4 b64Cls))
    (.cat (.alt (.cat (repN 2 b64Cls) (lit "=="))
      (.alt (.cat (repN 3 b64Cls) (lit "=")) (repN 4 b64Cls))) .eol))

/-- Optional sign `(\-?|\+?)?` of the geolocation rule. -/
def geoSign : RE := copt (.alt (copt (lit "-")) (copt (lit "+")))

/-- Rule `misc.geolocation`:
`^((\-?|\+?)?\d+(\.\d+)?),\s*((\-?|\+?)?\d+(\.\d+)?)$`. -/
def geolocation : RE :=
  .cat .bol (.cat geoSign (.cat (plus (cls1 [.digit]))
    (.cat (copt (.cat (lit ".") (plus (cls1 [.digit]))))
      (.cat (lit ",") (.cat (.star (cls1 [.space]))
        (.cat geoSign (.cat (plus (cls1 [.digit]))
          (.cat (copt (.cat (lit ".") (plus (cls1 [.digit])))) .eol))))))))

/-- Rule `pii.address`:
`(^(\d+)\s?([A-Za-z](?=\s))?\s(.*?)\s([^ ]+?)\s?((?<=\s)APT)?\s?((?<=\s)\d*)?$)`. -/
def address : RE :=
  .cat .bol (.cat (plus (cls1 [.digit])) (.cat (copt (cls1 [.space]))
    (.cat (copt (.cat (cls1 [crng 'A' 'Z', crng 'a' 'z']) (.pla (cls1 [.space]))))
      (.cat (cls1 [.space]) (.cat (.lazyStar cdot) (.cat (cls1 [.space])
        (.cat (lazyPlus (RE.cls true [cone ' '])) (.cat (copt (cls1 [.space]))
          (.cat (copt (.cat (.plb false [.space]) (lit "APT")))
            (.cat (copt (cls1 [.space]))
              (.cat (copt (.cat (.plb false [.space]) (.star (cls1 [.digit])))) .eol)))))))))))

/-- Rule `pii.cc` (helpers.py variant, single anchored alternation). -/
def cc : RE :=
  .cat .bol (.cat
    (.alt (.cat (lit "4") (.cat (repN 12 (cls1 [crng '0' '9']))
        (copt (repN 3 (cls1 [crng '0' '9'])))))
    (.alt (.cat (.alt (.cat (lit "5") (.cat (cls1 [crng '1' '5']) (repN 2 (cls1 [crng '0' '9']))))
        (.alt (.cat (lit "222") (cls1 [crng '1' '9']))
        (.alt (.cat (lit "22") (.cat (cls1 [crng '3' '9']) (cls1 [crng '0' '9'])))
        (.alt (.cat (lit "2") (.cat (cls1 [crng '3' '6']) (repN 2 (cls1 [crng '0' '9']))))
        (.alt (.cat (lit "27") (.cat (cls1 [cone '0', cone '1']) (cls1 [crng '0' '9'])))
          (lit "2720"))))))
      (repN 12 (cls1 [crng '0' '9'])))
    (.alt (.cat (lit "6") (.cat (.alt (lit "011")
        (.cat (lit "5") (repN 2 (cls1 [crng '0' '9']))))
      (repN 12 (cls1 [crng '0' '9']))))
    (.alt (.cat (lit "3") (.cat (cls1 [cone '4', cone '7']) (repN 13 (cls1 [crng '0' '9']))))
    (.alt (.cat (lit "3") (.cat (.alt (.cat (lit "0") (cls1 [crng '0' '5']))
        (.cat (cls1 [cone '6', cone '8']) (cls1 [crng '0' '9'])))
      (repN 11 (cls1 [crng '0' '9']))))
      (.cat (.alt (lit "2131") (.alt (lit "1800")
          (.cat (lit "35") (repN 3 (cls1 [.digit])))))
        (repN 11 (cls1 [.digit]))))))))
    .eol)

/-- Class `[\d-]` used by the phone rule's lookarounds. -/
def phoneGuard : List ClassItem := [.digit, cone '-']

/-- Separator class `[-.\s*]` of the phone rule. -/
def phoneSep : RE := cls1 [cone '-', cone '.', .space, cone '*']

/-- Rule `pii.phone` (two alternatives; the second ends with a literal
`\$` dollar sign). -/
def phone : RE :=
  .alt
    (.cat .bol (.cat (.nlb false phoneGuard)
      (.cat (copt (.cat (copt (lit "+")) (.cat (rep 1 3 (cls1 [.digit])) (copt phoneSep))))
        (.cat (copt (.cat (copt (lit "(")) (.cat (repN 3 (cls1 [.digit]))
            (.cat (copt (lit ")")) (copt phoneSep)))))
          (.cat (repN 3 (cls1 [.digit])) (.cat (copt phoneSep)
            (.cat (repN 4 (cls1 [.digit])) (.nla (cls1 phoneGuard)))))))))
    (.cat (.cat (.nlb false phoneGuard)
      (.cat (.alt (.cat (lit "(") (.cat (copt (lit "+")) (.cat (repN 2 (cls1 [.digit]))
          (lit ")"))))
        (.cat (copt (lit "+")) (repN 2 (cls1 [.digit]))))
        (.cat (.star (cls1 [.space])) (.cat (repN 2 (cls1 [.digit]))
          (.cat (.star (cls1 [.space])) (.cat (repN 3 (cls1 [.digit]))
            (.cat (.star (cls1 [.space])) (.cat (repN 4 (cls1 [.digit]))
              (.nla (cls1 phoneGuard))))))))))
      (lit "$"))

/-- Rule `pii.po_box`: `P\.? ?O\.? Box \d+`. -/
def po_box : RE :=
  .cat (lit "P") (.cat (copt (lit ".")) (.cat (copt (lit " "))
    (.cat (lit "O") (.cat (copt (lit ".")) (.cat (lit " Box ") (plus (cls1 [.digit])))))))

/-- Rule `pii.ssn`:
`((?!000|666|333)0*(?:[0-6][0-9][0-9]|[0-7][0-6][0-9]|[0-7][0-7][0-2])[- ](?!00))[0-9]{2}[- ](?!0000)[0-9]{4}`. -/
def ssn : RE :=
  .cat (.nla (.alt (lit "000") (.alt (lit "666") (lit "333"))))
    (.cat (.star (cls1 [cone '0']))
      (.cat (.alt (.cat (cls1 [crng '0' '6']) (.cat (cls1 [crng '0' '9']) (cls1 [crng '0' '9'])))
        (.alt (.cat (cls1 [crng '0' '7']) (.cat (cls1 [crng '0' '6']) (cls1 [crng '0' '9'])))
          (.cat (cls1 [crng '0' '7']) (.cat (cls1 [crng '0' '7']) (cls1 [crng '0' '2'])))))
        (.cat (cls1 [cone '-', cone ' '])
          (.cat (.nla (lit "00"))
            (.cat (repN 2 (cls1 [crng '0' '9']))
              (.cat (cls1 [cone '-', cone ' '])
                (.cat (.nla (lit "0000")) (repN 4 (cls1 [crng '0' '9'])))))))))

/-- Rule `pii.zip_code`: `\b\d{5}(?:[-\s]\d{4})?\b`. -/
def zip_code : RE :=
  .cat .wordB (.cat (repN 5 (cls1 [.digit]))
    (.cat (copt (.cat (cls1 [cone '-', .space]) (repN 4 (cls1 [.digit])))) .wordB))

end Patterns

/-!
String-level helpers modelling the Python builtins the source relies on:
`str.lower`, `str.strip`, `str.startswith("#")`, `sorted` and `set`.
-/

/-- Python `str.lower` on one character, on the alphabets occurring in
this development (ASCII and the basic Cyrillic block; all other
modelled characters are uncased and map to themselves). -/
def pyLowerChar (c : Char) : Char :=
  if 65 ≤ c.toNat ∧ c.toNat ≤ 90 then Char.ofNat (c.toNat + 32)
  else if 0x410 ≤ c.toNat ∧ c.toNat ≤ 0x42F then Char.ofNat (c.toNat + 0x20)
  else if c.toNat = 0x401 then Char.ofNat 0x451
  else c

/-- Python `str.lower` on a string. -/
def pyLower (s : String) : String := String.mk (s.data.map pyLowerChar)

/-- Python `str.strip()` (whitespace from both ends). -/
def pyStrip (s : String) : String :=
  String.mk (((s.data.dropWhile (fun c => isSpaceCode c.toNat)).reverse.dropWhile
    (fun c => isSpaceCode c.toNat)).reverse)

/-- Python `line.startswith("#")`. -/
def startsWithHash (s : String) : Bool :=
  match s.data with
  | [] => false
  | c :: _ => c = '#'

/-- Lexicographic (code-point) comparison, the order Python's `sorted`
uses on strings. -/
def codeListLe : List Nat → List Nat → Bool
  | [], _ => true
  | _ :: _, [] => false
  | x :: xs, y :: ys => if x < y then true else if y < x then false else codeListLe xs ys

/-- `a ≤ b` in Python string order. -/
def pyStrLe (a b : String) : Bool :=
  codeListLe (a.data.map Char.toNat) (b.data.map Char.toNat)

/-- Python `sorted` on a list of strings. -/
def sortLex (l : List String) : List String :=
  List.insertionSort (fun a b => pyStrLe a b = true) l

/-- Is the list of strings in (weakly) ascending Python string order? -/
def lexSortedB : List String → Bool
  | [] => true
  | [_] => true
  | a :: b :: t => pyStrLe a b && lexSortedB (b :: t)

/-- Python `"\n".join(someSet)` iterates the set in an arbitrary,
hash-dependent order: the only guarantee the source gives about the
emitted sequence of a category's final set is that it enumerates the
distinct elements once each, i.e. is a permutation of them. -/
def IsEmission (finalSet out : List String) : Prop := out.Perm finalSet

/-- Total lookup in an association list keyed by strings
(model of a Python dict access on the keys that are present). -/
def lookupL (lab : String) : List (String × List String) → Option (List String)
  | [] => none
  | p :: rest => if p.1 = lab then some p.2 else lookupL lab rest

namespace Helpers

/-- The pattern registry `Helpers.regex` of src/utils/helpers.py: a
lookup from (category, pattern name) to the compiled rule; an absent
pair yields `none` (the Python code would raise `KeyError`). -/
def regex : String → String → Option RE
  | "languages", "arabic" => some Patterns.arabic
  | "languages", "chinese" => some Patterns.chinese
  | "languages", "kanji" => some Patterns.kanji
  | "languages", "han-unification" => some Patterns.han_unification
  | "languages", "farsi" => some Patterns.farsi
  | "languages", "cyrillic" => some Patterns.cyrillic
  | "languages", "hebrew" => some Patterns.hebrew
  | "languages", "devanagari" => some Patterns.devanagari
  | "hashes", "md5" => some Patterns.md5
  | "hashes", "sha1" => some Patterns.sha1
  | "hashes", "sha256" => some Patterns.sha256
  | "hashes", "sha512" => some Patterns.sha512
  | "net-related", "ipv4" => some Patterns.ipv4
  | "net-related", "mac" => some Patterns.mac
  | "web-related", "domain" => some Patterns.domain
  | "web-related", "email" => some Patterns.email
  | "web-related", "url" => some Patterns.url
  | "web-related", "webfile" => some Patterns.webfile
  | "file-related", "archive" => some Patterns.archive
  | "file-related", "binary" => some Patterns.binary
  | "file-related", "env_var" => some Patterns.env_var
  | "file-related", "image" => some Patterns.image
  | "file-related", "misc_file" => some Patterns.misc_file
  | "file-related", "office" => some Patterns.office
  | "file-related", "script" => some Patterns.script
  | "file-related", "windir" => some Patterns.windir
  | "misc", "btc" => some Patterns.btc
  | "misc", "base64" => some Patterns.base64
  | "misc", "geolocation" => some Patterns.geolocation
  | "pii", "address" => some Patterns.address
  | "pii", "cc" => some Patterns.cc
  | "pii", "phone" => some Patterns.phone
  | "pii", "po_box" => some Patterns.po_box
  | "pii", "ssn" => some Patterns.ssn
  | "pii", "zip_code" => some Patterns.zip_code
  | _, _ => none

/-- Force a registry lookup that the source performs on keys it knows
are present (a `KeyError` cannot occur for them). -/
def reOf (tbl : String → String → Option RE) (c n : String) : RE := (tbl c n).getD RE.eps

/-- `Helpers.reiter`: all matches of the rule in the lower-cased text,
in document order (`re.finditer(regex, text.lower())`). -/
def reiter (r : RE) (text : String) : List String := findAll r (pyLower text)

/-- `Helpers.detect_language`, parameterized by the registry table: the
language → match-list dictionary, in source (insertion) order. -/
def detect_languageT (tbl : String → String → Option RE) (text : String) :
    List (String × List String) :=
  [("KANJI", reiter (reOf tbl "languages" "kanji") text),
   ("ARABIC", reiter (reOf tbl "languages" "arabic") text),
   ("CHINESE", reiter (reOf tbl "languages" "chinese") text),
   ("FARSI", reiter (reOf tbl "languages" "farsi") text),
   ("CYRILLIC", reiter (reOf tbl "languages" "cyrillic") text),
   ("HEBREW", reiter (reOf tbl "languages" "hebrew") text),
   ("HAN", reiter (reOf tbl "languages" "han-unification") text),
   ("DEVANAGARI", reiter (reOf tbl "languages" "devanagari") text)]

/-- `Helpers.detect_language` with the real registry. -/
def detect_language (text : String) : List (String × List String) :=
  detect_languageT regex text

/-- `Helpers.patts`, parameterized by the registry table: the
label → match-list dictionary, in source (insertion) order. -/
def pattsT (tbl : String → String → Option RE) (text : String) :
    List (String × List String) :=
  [("ARCHIVE", reiter (reOf tbl "file-related" "archive") text),
   ("BINARY", reiter (reOf tbl "file-related" "binary") text),
   ("BTC", reiter (reOf tbl "misc" "btc") text),
   ("DOMAIN", reiter (reOf tbl "web-related" "domain") text),
   ("EMAIL", reiter (reOf tbl "web-related" "email") text),
   ("ENVIRONMENT VARIABLE", reiter (reOf tbl "file-related" "env_var") text),
   ("MISC FILE", reiter (reOf tbl "file-related" "misc_file") text),
   ("IMAGE", reiter (reOf tbl "file-related" "image") text),
   ("IPV4", reiter (reOf tbl "net-related" "ipv4") text),
   ("GEOLOCATION", reiter (reOf tbl "misc" "geolocation") text),
   ("MAC", reiter (reOf tbl "net-related" "mac") text),
   ("MD5", reiter (reOf tbl "hashes" "md5") text),
   ("OFFICE/PDF", reiter (reOf tbl "file-related" "office") text),
   ("PHONE", reiter (reOf tbl "pii" "phone") text),
   ("SCRIPT", reiter (reOf tbl "file-related" "script") text),
   ("SHA1", reiter (reOf tbl "hashes" "sha1") text),
   ("SHA256", reiter (reOf tbl "hashes" "sha256") text),
   ("URL", reiter (reOf tbl "web-related" "url") text),
   ("WEB FILE", reiter (reOf tbl "web-related" "webfile") text),
   ("WIN DIR", reiter (reOf tbl "file-related" "windir") text)]

/-- `Helpers.patts` with the real registry. -/
def patts (text : String) : List (String × List String) := pattsT regex text

end Helpers

namespace PDFWorker

/-- The hard-coded exclusion tuple of `process_domains`. -/
def excludeTlds : List String := ["gov", "foo", "py", "zip"]

/-- `PDFWorker.valid_tlds` applied to the lines of an existing TLDs
file: each line stripped and lower-cased, blank lines and `#` comments
skipped, collected as a set (modelled as a deduplicated list). -/
def valid_tlds (lines : List String) : List String :=
  ((lines.map (fun l => pyLower (pyStrip l))).filter
    (fun t => (t != "") && !startsWithHash t)).dedup

/-- `domain.split(".")[-1]`: the part of the string after its last `.`
(the whole string when it has no `.`). -/
def lastDotSuffix (s : String) : String :=
  String.mk (s.data.foldl (fun acc c => if c = '.' then [] else acc ++ [c]) [])

/-- `PDFWorker.process_domains`, with the TLDs file state explicit
(`none` means the file does not exist). The `valid_tlds` property is
read inside the loop body, so an empty candidate set never touches the
file; with candidates present and the file missing, opening it raises
`FileNotFoundError`, modelled as `Except.error ()`. -/
def process_domains (file : Option (List String)) (cands : List String) :
    Except Unit (List String) :=
  match cands with
  | [] => .ok []
  | _ =>
    match file with
    | none => .error ()
    | some lines =>
      .ok (cands.filter (fun d =>
        (valid_tlds lines).contains (pyLower (lastDotSuffix d)) &&
        !(excludeTlds.contains (pyLower (lastDotSuffix d)))))

/-- The body of the `for key, pvals in helper.patts(text).items()` loop
of `PDFWorker.get_patterns`: deduplicate and sort the matches, count a
first increment if non-empty, filter the `DOMAIN` category through
`process_domains`, count a second increment if the (possibly filtered)
set is non-empty — otherwise decrement for `DOMAIN` — and record the
final set handed to `print_and_write_patterns`. -/
def stepKey (file : Option (List String)) (acc : Int × List (String × List String))
    (kv : String × List String) : Except Unit (Int × List (String × List String)) :=
  let sp := sortLex kv.2.dedup
  let c1 : Int := if sp ≠ [] then 1 else 0
  match (if kv.1 = "DOMAIN" then process_domains file sp else .ok sp) with
  | .error e => .error e
  | .ok sp2 =>
    let c2 : Int := if sp2 ≠ [] then 1 else if kv.1 = "DOMAIN" then -1 else 0
    .ok (acc.1 + c1 + c2, acc.2 ++ [(kv.1, sp2)])

/-- The whole pattern loop; an exception raised in one iteration aborts
the remaining ones. -/
def foldKeys (file : Option (List String)) :
    List (String × List String) → Int × List (String × List String) →
    Except Unit (Int × List (String × List String))
  | [], acc => .ok acc
  | kv :: rest, acc =>
    match stepKey file acc kv with
    | .error e => .error e
    | .ok acc2 => foldKeys file rest acc2

/-- The `languages` set iterated by `PDFWorker.detect_language` (a
Python set literal; its iteration order does not affect the counter or
which labels report results). -/
def languages : List String := ["ARABIC", "CYRILLIC", "KANJI", "CHINESE", "FARSI", "HEBREW"]

/-- Outcome of one classification run: the per-language joined match
blobs that were reported (non-empty only), the final per-category sets
handed to emission, the final counter, and whether the
`= No IOCs found =` signal fires. -/
structure ClassifyResult where
  langResults : List (String × String)
  results : List (String × List String)
  counter : Int
  noIOCs : Bool
deriving DecidableEq, Repr

/-- The `PDFWorker.detect_language` phase: the six looked-up labels with
their joined match blobs, keeping the labels whose blob is non-empty
(each contributes one counter increment and one reported entry). -/
def langResultsT (tbl : String → String → Option RE) (text : String) :
    List (String × String) :=
  (languages.map
    (fun lab => (lab, String.join ((lookupL lab (Helpers.detect_languageT tbl text)).getD
      [])))).filter (fun p => p.2 != "")

/-- The classification pipeline of `PDFWorker.get_patterns` on
already-extracted text, parameterized by the registry table and by the
TLDs file state at domain-filtering time: run `detect_language` (one
counter increment per non-empty language blob among the six looked-up
labels), then the pattern loop, then the final counter test. -/
def classifyT (tbl : String → String → Option RE) (file : Option (List String))
    (text : String) : Except Unit ClassifyResult :=
  match foldKeys file (Helpers.pattsT tbl text) (((langResultsT tbl text).length : Int), []) with
  | .error e => .error e
  | .ok acc =>
    .ok { langResults := langResultsT tbl text, results := acc.2, counter := acc.1,
          noIOCs := decide (acc.1 ≤ 0) }

/-- Classification with the real registry. -/
def classify (file : Option (List String)) (text : String) : Except Unit ClassifyResult :=
  classifyT Helpers.regex file text

/-- The final per-category sets of a run (empty on an uncaught
exception). -/
def resultsOf (file : Option (List String)) (text : String) : List (String × List String) :=
  match classify file text with
  | .ok r => r.results
  | .error _ => []

/-- The reported language blobs of a run. -/
def langResultsOf (file : Option (List String)) (text : String) : List (String × String) :=
  match classify file text with
  | .ok r => r.langResults
  | .error _ => []

/-- The final counter of a run. -/
def counterOf (file : Option (List String)) (text : String) : Int :=
  match classify file text with
  | .ok r => r.counter
  | .error _ => 0

/-- Whether the run ends in the `= No IOCs found =` signal. -/
def noIOCsOf (file : Option (List String)) (text : String) : Bool :=
  match classify file text with
  | .ok r => r.noIOCs
  | .error _ => false

/-- Domains kept by `process_domains` over an existing TLDs file. -/
def keptDomains (lines : List String) (cands : List String) : List String :=
  match process_domains (some lines) cands with
  | .ok r => r
  | .error _ => []

/-- Explicit state for the TLDs-file freshness logic: whether the local
file exists and with which lines, its last-modified time and the current
time (seconds, UTC), and what a download attempt would yield (`none`
models a network failure caught by `download_tlds`). -/
structure TldsWorld where
  fileExists : Bool
  fileLines : List String
  mtime : Int
  now : Int
  downloadResult : Option (List String)
deriving DecidableEq, Repr

/-- `PDFWorker.check_tlds_file_age`: if the file is older than the age
limit, perform exactly one download attempt (a failure leaves the file
as it is); otherwise do nothing. Returns the number of download
attempts and the resulting file state. -/
def check_tlds_file_age (w : TldsWorld) (age_limit_days : Int) :
    Nat × Option (List String) :=
  if w.now - w.mtime > age_limit_days * 86400 then
    (1, match w.downloadResult with
        | some content => some content
        | none => some w.fileLines)
  else (0, some w.fileLines)

/-- `PDFWorker.tlds_file`: check the age of an existing file, or perform
one download attempt when the file is missing (a failed download leaves
it missing). -/
def tlds_file (w : TldsWorld) (age_limit_days : Int) : Nat × Option (List String) :=
  if w.fileExists then check_tlds_file_age w age_limit_days
  else (1, w.downloadResult)

/-- One full `get_patterns` session: ensure the TLDs file, then
classify. -/
def runSession (w : TldsWorld) (age_limit_days : Int) (text : String) :
    Except Unit ClassifyResult :=
  classify (tlds_file w age_limit_days).2 text

end PDFWorker

/-!
Static analyses of regular expressions, used to prove that no rule in
`Helpers.patts` can produce an empty or whitespace-only match.
-/

/-- Lower bound on the number of characters any match of the expression
consumes. -/
def minLen : RE → Nat
  | .eps => 0
  | .cls _ _ => 1
  | .cat a b => minLen a + minLen b
  | .alt a b => min (minLen a) (minLen b)
  | .star _ => 0
  | .lazyStar _ => 0
  | .bol => 0
  | .eol => 0
  | .wordB => 0
  | .nla _ => 0
  | .pla _ => 0
  | .nlb _ _ => 0
  | .plb _ _ => 0

/-- Conservative check that every character a class item accepts is a
non-whitespace character. -/
def itemNS : ClassItem → Bool
  | .range a b => spaceCodes.all (fun s => decide (s < a) || decide (b < s))
  | .digit => true
  | .word => true
  | .nspace => true
  | .space => false
  | .nword => false

/-- Conservative check that every character a (non-negated) class
accepts is non-whitespace. -/
def clsNS (neg : Bool) (items : List ClassItem) : Bool := !neg && items.all itemNS

/-- Conservative syntactic check that every match of the expression must
contain at least one non-whitespace character. -/
def mhNS : RE → Bool
  | .eps => false
  | .cls neg items => clsNS neg items
  | .cat a b => mhNS a || mhNS b
  | .alt a b => mhNS a && mhNS b
  | .star _ => false
  | .lazyStar _ => false
  | .bol => false
  | .eol => false
  | .wordB => false
  | .nla _ => false
  | .pla _ => false
  | .nlb _ _ => false
  | .plb _ _ => false

/-!
Soundness of the matcher: every success invokes the continuation at a
position within the text and at least `minLen` beyond the start, and —
when the syntactic check `mhNS` holds — some consumed character is
non-whitespace.
-/

/-- A position holding a character lies strictly inside the text. -/
theorem codeAt_lt {text : List Char} {i n : Nat} (h : codeAt text i = some n) :
    i < text.length := by
  by_contra hlt
  unfold codeAt at h
  rw [List.get?_eq_none.mpr (by omega)] at h
  simp at h

/-- Unpack the character behind a `codeAt` success. -/
theorem codeAt_char {text : List Char} {i n : Nat} (h : codeAt text i = some n) :
    ∃ c, text.get? i = some c ∧ c.toNat = n := by
  unfold codeAt at h
  cases hg : text.get? i with
  | none => rw [hg] at h; simp at h
  | some c => rw [hg] at h; simp at h; exact ⟨c, rfl, h⟩

/-- A class item passing `itemNS` only accepts non-whitespace code
points. -/
theorem itemNS_sound {it : ClassItem} {n : Nat} (h1 : itemNS it = true)
    (h2 : itemHas n it = true) : isSpaceCode n = false := by
  cases it <;>
    simp_all [itemNS, itemHas, isSpaceCode, isDigitCode, isWordCode, spaceCodes] <;> omega

/-- A class passing `clsNS` only accepts non-whitespace code points. -/
theorem clsNS_sound {neg : Bool} {items : List ClassItem} {n : Nat}
    (h1 : clsNS neg items = true) (h2 : inCls neg items n = true) :
    isSpaceCode n = false := by
  simp only [clsNS, Bool.and_eq_true] at h1
  obtain ⟨hneg, hall⟩ := h1
  have hneg2 : neg = false := by cases neg <;> simp_all
  rw [hneg2] at h2
  simp only [inCls, if_neg (by simp : ¬ false = true), List.any_eq_true] at h2
  obtain ⟨it, hmem, hhas⟩ := h2
  exact itemNS_sound (by simpa using (List.all_eq_true.mp hall it hmem)) hhas

/-- Main inversion lemma for the matcher: a success happens through the
continuation, at a position bounded below by `minLen` and above by the
text length, and a match of an `mhNS` expression contains a
non-whitespace character. -/
theorem matchK_sound : ∀ (f : Nat) (r : RE) (text : List Char) (pos : Nat)
    (k : Nat → Option Nat) (v : Nat),
    pos ≤ text.length → matchK f r text pos k = some v →
    ∃ p, pos + minLen r ≤ p ∧ p ≤ text.length ∧ k p = some v ∧
      (mhNS r = true → ∃ i c, pos ≤ i ∧ i < p ∧ text.get? i = some c ∧
        isSpaceCode c.toNat = false) := by
  intro f
  induction f with
  | zero => intro r text pos k v _ h; simp [matchK] at h
  | succ f ih =>
    intro r text pos k v hle h
    cases r with
    | eps =>
      simp only [matchK] at h
      exact ⟨pos, by simp [minLen], hle, h, fun hc => by simp [mhNS] at hc⟩
    | cls neg items =>
      simp only [matchK] at h
      cases hc : codeAt text pos with
      | none => simp [hc] at h
      | some n =>
        simp only [hc] at h
        by_cases hin : inCls neg items n = true
        · rw [if_pos hin] at h
          obtain ⟨c, hgc, hcn⟩ := codeAt_char hc
          refine ⟨pos + 1, by simp [minLen], codeAt_lt hc, h, fun hmh => ?_⟩
          simp only [mhNS] at hmh
          exact ⟨pos, c, le_refl _, Nat.lt_succ_self _, hgc,
            by rw [hcn]; exact clsNS_sound hmh hin⟩
        · rw [if_neg hin] at h; exact absurd h (by simp)
    | cat a b =>
      simp only [matchK] at h
      obtain ⟨p1, hp1, hp1len, hk1, hns1⟩ := ih a text pos _ v hle h
      obtain ⟨p, hp2, hplen, hk, hns2⟩ := ih b text p1 k v hp1len hk1
      refine ⟨p, by simp only [minLen]; omega, hplen, hk, fun hmh => ?_⟩
      simp only [mhNS, Bool.or_eq_true] at hmh
      cases hmh with
      | inl hA =>
        obtain ⟨i, c, h1, h2, h3, h4⟩ := hns1 hA
        exact ⟨i, c, h1, by omega, h3, h4⟩
      | inr hB =>
        obtain ⟨i, c, h1, h2, h3, h4⟩ := hns2 hB
        exact ⟨i, c, by omega, h2, h3, h4⟩
    | alt a b =>
      simp only [matchK] at h
      cases ha : matchK f a text pos k with
      | some w =>
        simp only [ha] at h
        injection h with h
        subst h
        obtain ⟨p, h1, h2, h3, h4⟩ := ih a text pos k _ hle ha
        refine ⟨p, by simp only [minLen]; omega, h2, h3, fun hmh => ?_⟩
        simp only [mhNS, Bool.and_eq_true] at hmh
        exact h4 hmh.1
      | none =>
        simp only [ha] at h
        obtain ⟨p, h1, h2, h3, h4⟩ := ih b text pos k _ hle h
        refine ⟨p, by simp only [minLen]; omega, h2, h3, fun hmh => ?_⟩
        simp only [mhNS, Bool.and_eq_true] at hmh
        exact h4 hmh.2
    | star b =>
      simp only [matchK] at h
      cases hb : matchK f b text pos
          (fun p => if pos < p then matchK f (.star b) text p k else none) with
      | some w =>
        simp only [hb] at h
        injection h with h
        subst h
        obtain ⟨p1, hp1, hp1len, hk1, _⟩ := ih b text pos _ _ hle hb
        by_cases hlt : pos < p1
        · rw [if_pos hlt] at hk1
          obtain ⟨p, hp2, hplen, hk, _⟩ := ih (.star b) text p1 k _ hp1len hk1
          refine ⟨p, ?_, hplen, hk, fun hc => by simp [mhNS] at hc⟩
          simp only [minLen] at hp2 ⊢
          omega
        · rw [if_neg hlt] at hk1; exact absurd hk1 (by simp)
      | none =>
        simp only [hb] at h
        exact ⟨pos, by simp [minLen], hle, h, fun hc => by simp [mhNS] at hc⟩
    | lazyStar b =>
      simp only [matchK] at h
      cases hk0 : k pos with
      | some w =>
        simp only [hk0] at h
        injection h with h
        subst h
        exact ⟨pos, by simp [minLen], hle, hk0, fun hc => by simp [mhNS] at hc⟩
      | none =>
        simp only [hk0] at h
        obtain ⟨p1, hp1, hp1len, hk1, _⟩ := ih b text pos _ _ hle h
        by_cases hlt : pos < p1
        · rw [if_pos hlt] at hk1
          obtain ⟨p, hp2, hplen, hk, _⟩ := ih (.lazyStar b) text p1 k _ hp1len hk1
          refine ⟨p, ?_, hplen, hk, fun hc => by simp [mhNS] at hc⟩
          simp only [minLen] at hp2 ⊢
          omega
        · rw [if_neg hlt] at hk1; exact absurd hk1 (by simp)
    | bol =>
      simp only [matchK] at h
      by_cases hp : pos = 0
      · rw [if_pos hp] at h
        exact ⟨pos, by simp [minLen], hle, h, fun hc => by simp [mhNS] at hc⟩
      · rw [if_neg hp] at h; exact absurd h (by simp)
    | eol =>
      simp only [matchK] at h
      by_cases hp : eolAt text pos = true
      · rw [if_pos hp] at h
        exact ⟨pos, by simp [minLen], hle, h, fun hc => by simp [mhNS] at hc⟩
      · rw [if_neg hp] at h; exact absurd h (by simp)
    | wordB =>
      simp only [matchK] at h
      by_cases hp : prevWordAt text pos ≠ isWordAt text pos
      · rw [if_pos hp] at h
        exact ⟨pos, by simp [minLen], hle, h, fun hc => by simp [mhNS] at hc⟩
      · rw [if_neg hp] at h; exact absurd h (by simp)
    | nla a =>
      simp only [matchK] at h
      cases ha : matchK f a text pos some with
      | some w => simp [ha] at h
      | none =>
        simp only [ha] at h
        exact ⟨pos, by simp [minLen], hle, h, fun hc => by simp [mhNS] at hc⟩
    | pla a =>
      simp only [matchK] at h
      cases ha : matchK f a text pos some with
      | some w =>
        simp only [ha] at h
        exact ⟨pos, by simp [minLen], hle, h, fun hc => by simp [mhNS] at hc⟩
      | none => simp [ha] at h
    | nlb neg items =>
      simp only [matchK] at h
      by_cases hp : lbHolds neg items text pos = true
      · rw [if_pos hp] at h; exact absurd h (by simp)
      · rw [if_neg hp] at h
        exact ⟨pos, by simp [minLen], hle, h, fun hc => by simp [mhNS] at hc⟩
    | plb neg items =>
      simp only [matchK] at h
      by_cases hp : lbHolds neg items text pos = true
      · rw [if_pos hp] at h
        exact ⟨pos, by simp [minLen], hle, h, fun hc => by simp [mhNS] at hc⟩
      · rw [if_neg hp] at h; exact absurd h (by simp)

/-- `matchAt` success: end position bounds and non-whitespace content. -/
theorem matchAt_sound {r : RE} {text : List Char} {pos e : Nat}
    (hle : pos ≤ text.length) (h : matchAt r text pos = some e) :
    pos + minLen r ≤ e ∧ e ≤ text.length ∧
      (mhNS r = true → ∃ i c, pos ≤ i ∧ i < e ∧ text.get? i = some c ∧
        isSpaceCode c.toNat = false) := by
  obtain ⟨p, h1, h2, h3, h4⟩ := matchK_sound _ r text pos some e hle h
  injection h3 with h3
  subst h3
  exact ⟨h1, h2, h4⟩

/-- Scanning past the end of the text yields nothing. -/
theorem findAllAux_nil {r : RE} {text : List Char} {f pos : Nat}
    (h : pos > text.length) : findAllAux r text f pos = [] := by
  cases f with
  | zero => rfl
  | succ f => simp [findAllAux, h]

/-- Every fragment the scanner emits is an extract of the text at a
matched span. -/
theorem findAllAux_sound {r : RE} {text : List Char} :
    ∀ (f pos : Nat) (m : List Char), m ∈ findAllAux r text f pos →
    ∃ a e, pos ≤ a ∧ a ≤ text.length ∧ matchAt r text a = some e ∧
      m = (text.drop a).take (e - a) := by
  intro f
  induction f with
  | zero => intro pos m hm; simp [findAllAux] at hm
  | succ f ih =>
    intro pos m hm
    by_cases hp : pos > text.length
    · rw [findAllAux_nil hp] at hm; simp at hm
    · simp only [findAllAux, if_neg hp] at hm
      cases hma : matchAt r text pos with
      | some e =>
        simp only [hma] at hm
        rcases List.mem_cons.mp hm with h1 | h1
        · exact ⟨pos, e, le_refl _, by omega, hma, h1⟩
        · obtain ⟨a, e2, hnext, halen, hae, hext⟩ := ih _ m h1
          have hge : pos ≤ (if pos < e then e else pos + 1) := by split <;> omega
          exact ⟨a, e2, le_trans hge hnext, halen, hae, hext⟩
      | none =>
        simp only [hma] at hm
        obtain ⟨a, e2, hnext, halen, hae, hext⟩ := ih _ m hm
        exact ⟨a, e2, by omega, halen, hae, hext⟩

/-- Every string `findAll` returns is an extract of the searched string
at a matched span. -/
theorem findAll_mem {r : RE} {s : String} {m : String} (hm : m ∈ findAll r s) :
    ∃ a e, a ≤ s.data.length ∧ matchAt r s.data a = some e ∧
      m.data = (s.data.drop a).take (e - a) := by
  unfold findAll at hm
  obtain ⟨l, hl, hml⟩ := List.mem_map.mp hm
  obtain ⟨a, e, _, halen, hae, hext⟩ := findAllAux_sound _ _ l hl
  exact ⟨a, e, halen, hae, by rw [← hml]; exact hext⟩

/-- A reported match occurs inside the searched string. -/
theorem findAll_infix {r : RE} {s m : String} (hm : m ∈ findAll r s) :
    m.data <:+: s.data := by
  obtain ⟨a, e, _, _, hext⟩ := findAll_mem hm
  refine ⟨s.data.take a, (s.data.drop a).drop (e - a), ?_⟩
  rw [hext, List.append_assoc, List.take_append_drop, List.take_append_drop]

/-- A rule that must consume at least one character never reports the
empty string. -/
theorem findAll_ne_empty {r : RE} {s m : String} (h1 : 1 ≤ minLen r)
    (hm : m ∈ findAll r s) : m ≠ "" := by
  obtain ⟨a, e, halen, hae, hext⟩ := findAll_mem hm
  obtain ⟨hb1, hb2, _⟩ := matchAt_sound halen hae
  intro hcon
  have hd : m.data = [] := by rw [hcon]
  rw [hext] at hd
  have hlen : ((s.data.drop a).take (e - a)).length = 0 := by rw [hd]; rfl
  rw [List.length_take, List.length_drop] at hlen
  omega

/-- A rule passing the `mhNS` check never reports a whitespace-only
string. -/
theorem findAll_nonspace {r : RE} {s m : String} (h1 : mhNS r = true)
    (hm : m ∈ findAll r s) : ∃ c ∈ m.data, isSpaceCode c.toNat = false := by
  obtain ⟨a, e, halen, hae, hext⟩ := findAll_mem hm
  obtain ⟨hb1, hb2, hns⟩ := matchAt_sound halen hae
  obtain ⟨i, c, hi1, hi2, hgc, hcs⟩ := hns h1
  refine ⟨c, ?_, hcs⟩
  rw [hext]
  have hilen : i < s.data.length := by
    by_contra hx
    rw [List.get?_eq_none.mpr (by omega)] at hgc
    simp at hgc
  have hg : ((s.data.drop a).take (e - a)).get? (i - a) = some c := by
    rw [List.get?_take (by omega), List.get?_drop, show a + (i - a) = i by omega]
    exact hgc
  exact List.get?_mem hg

/-!
Structure of the aggregation pipeline: what ends up in a run's final
result sets.
-/

/-- A map leaving every element in place leaves the list in place. -/
theorem mapSelf {α : Type} {f : α → α} : ∀ {l : List α}, (∀ x ∈ l, f x = x) → l.map f = l := by
  intro l
  induction l with
  | nil => intro _; rfl
  | cons x xs ih =>
    intro h
    simp only [List.map_cons, h x (by simp), ih (fun y hy => h y (by simp [hy]))]

/-- `sorted` only permutes. -/
theorem sortLex_perm (l : List String) : (sortLex l).Perm l :=
  List.perm_insertionSort _ l

/-- Membership in `sorted(set(l))` is membership in `l`. -/
theorem mem_sortLex_dedup {x : String} {l : List String} :
    x ∈ sortLex l.dedup ↔ x ∈ l := by
  rw [(sortLex_perm _).mem_iff, List.mem_dedup]

/-- `sorted(set(l))` has no duplicates. -/
theorem nodup_sortLex_dedup (l : List String) : (sortLex l.dedup).Nodup :=
  ((sortLex_perm _).nodup_iff).mpr (List.nodup_dedup l)

/-- A successful domain filter only keeps candidates and preserves
distinctness. -/
theorem process_domains_ok {file : Option (List String)} {sp sp2 : List String}
    (h : PDFWorker.process_domains file sp = .ok sp2) :
    (∀ x ∈ sp2, x ∈ sp) ∧ (sp.Nodup → sp2.Nodup) := by
  unfold PDFWorker.process_domains at h
  cases sp with
  | nil =>
    injection h with h
    subst h
    exact ⟨by simp, fun _ => List.nodup_nil⟩
  | cons a rest =>
    cases file with
    | none => cases h
    | some lines =>
      injection h with h
      subst h
      exact ⟨fun x hx => List.mem_of_mem_filter hx, fun hn => hn.filter _⟩

/-- One loop iteration only appends the current key's final set, which
consists of (deduplicated) raw matches of that key. -/
theorem stepKey_results {file : Option (List String)}
    {acc : Int × List (String × List String)} {kv : String × List String}
    {acc2 : Int × List (String × List String)}
    (h : PDFWorker.stepKey file acc kv = .ok acc2) :
    ∀ q ∈ acc2.2, q ∈ acc.2 ∨ (q.1 = kv.1 ∧ (∀ x ∈ q.2, x ∈ kv.2) ∧ q.2.Nodup) := by
  simp only [PDFWorker.stepKey] at h
  by_cases hdom : kv.1 = "DOMAIN"
  · rw [if_pos hdom] at h
    cases hd : PDFWorker.process_domains file (sortLex kv.2.dedup) with
    | error e => rw [hd] at h; cases h
    | ok sp2 =>
      rw [hd] at h
      injection h with h
      subst h
      intro q hq
      rcases List.mem_append.mp hq with h1 | h1
      · exact Or.inl h1
      · right
        have hq2 : q = (kv.1, sp2) := by simpa using h1
        subst hq2
        obtain ⟨hsub, hnd⟩ := process_domains_ok hd
        exact ⟨rfl, fun x hx => mem_sortLex_dedup.mp (hsub x hx),
          hnd (nodup_sortLex_dedup _)⟩
  · rw [if_neg hdom] at h
    injection h with h
    subst h
    intro q hq
    rcases List.mem_append.mp hq with h1 | h1
    · exact Or.inl h1
    · right
      have hq2 : q = (kv.1, sortLex kv.2.dedup) := by simpa using h1
      subst hq2
      exact ⟨rfl, fun x hx => mem_sortLex_dedup.mp hx, nodup_sortLex_dedup _⟩

/-- Across the whole loop: every recorded pair comes from the initial
accumulator or from one of the iterated (key, matches) pairs. -/
theorem foldKeys_results {file : Option (List String)} :
    ∀ (kvs : List (String × List String)) (acc out : Int × List (String × List String)),
    PDFWorker.foldKeys file kvs acc = .ok out →
    ∀ q ∈ out.2, q ∈ acc.2 ∨
      ∃ kv, kv ∈ kvs ∧ q.1 = kv.1 ∧ (∀ x ∈ q.2, x ∈ kv.2) ∧ q.2.Nodup := by
  intro kvs
  induction kvs with
  | nil =>
    intro acc out h q hq
    simp only [PDFWorker.foldKeys] at h
    injection h with h
    subst h
    exact Or.inl hq
  | cons kv rest ih =>
    intro acc out h q hq
    simp only [PDFWorker.foldKeys] at h
    cases hs : PDFWorker.stepKey file acc kv with
    | error e => rw [hs] at h; cases h
    | ok acc2 =>
      rw [hs] at h
      rcases ih acc2 out h q hq with h1 | ⟨kv2, hm, hp⟩
      · rcases stepKey_results hs q h1 with h2 | h2
        · exact Or.inl h2
        · exact Or.inr ⟨kv, by simp, h2⟩
      · exact Or.inr ⟨kv2, by simp [hm], hp⟩

set_option maxRecDepth 16000 in
/-- Every entry of `Helpers.patts` is the rule-match list of a rule
that consumes at least one character and must contain a non-whitespace
character. -/
theorem patts_spec {text : String} : ∀ kv ∈ Helpers.patts text,
    ∃ r, kv.2 = findAll r (pyLower text) ∧ 1 ≤ minLen r ∧ mhNS r = true := by
  intro kv hkv
  simp only [Helpers.patts, Helpers.pattsT, List.mem_cons, List.not_mem_nil,
    or_false] at hkv
  rcases hkv with h|h|h|h|h|h|h|h|h|h|h|h|h|h|h|h|h|h|h|h <;>
    (subst h; exact ⟨_, rfl, by decide, by decide⟩)

/-- Every pair recorded in a successful run's results comes from one of
the `patts` pairs, as a distinct subset of its raw matches. -/
theorem classifyT_results {tbl : String → String → Option RE}
    {file : Option (List String)} {text : String} {res : PDFWorker.ClassifyResult}
    (hc : PDFWorker.classifyT tbl file text = .ok res) :
    ∀ q ∈ res.results, ∃ kv, kv ∈ Helpers.pattsT tbl text ∧ q.1 = kv.1 ∧
      (∀ x ∈ q.2, x ∈ kv.2) ∧ q.2.Nodup := by
  simp only [PDFWorker.classifyT] at hc
  cases hf : PDFWorker.foldKeys file (Helpers.pattsT tbl text)
      (((PDFWorker.langResultsT tbl text).length : Int), []) with
  | error e => rw [hf] at hc; cases hc
  | ok acc =>
    rw [hf] at hc
    injection hc with hc
    subst hc
    intro q hq
    rcases foldKeys_results _ _ _ hf q hq with h1 | ⟨kv, hm, hp⟩
    · simp at h1
    · exact ⟨kv, hm, hp⟩

/-- The same, phrased on `resultsOf` with the real registry, combined
with the per-rule guarantees: the final sets are distinct, and each
entry is a raw match of the corresponding rule in the lower-cased text. -/
theorem resultsOf_entry {file : Option (List String)} {text key : String}
    {lst : List String} (h : (key, lst) ∈ PDFWorker.resultsOf file text) :
    lst.Nodup ∧ ∀ x ∈ lst, ∃ r, 1 ≤ minLen r ∧ mhNS r = true ∧
      x ∈ findAll r (pyLower text) := by
  unfold PDFWorker.resultsOf at h
  cases hc : PDFWorker.classify file text with
  | error e => rw [hc] at h; simp at h
  | ok res =>
    rw [hc] at h
    obtain ⟨kv, hm, hkey, hsub, hnd⟩ := classifyT_results hc (key, lst) h
    obtain ⟨r, hr, hmin, hns⟩ := patts_spec kv hm
    exact ⟨hnd, fun x hx => ⟨r, hmin, hns, by rw [← hr]; exact hsub x hx⟩⟩

/-!
Exact behaviour of a single-character-class rule (the shape of all
language rules the pipeline consumes): it matches precisely the
characters of the class, one at a time, in document order.
-/

/-- A class rule matches exactly one character of the class. -/
theorem matchAt_cls (neg : Bool) (items : List ClassItem) (text : List Char) (pos : Nat) :
    matchAt (.cls neg items) text pos =
      match codeAt text pos with
      | none => none
      | some n => if inCls neg items n then some (pos + 1) else none := by
  rfl

/-- Scanning a class rule filters the text. -/
theorem findAllAux_cls (neg : Bool) (items : List ClassItem) (s : List Char) :
    ∀ (f pos : Nat), s.length - pos < f →
    findAllAux (.cls neg items) s f pos =
      ((s.drop pos).filter (fun c => inCls neg items c.toNat)).map (fun c => [c]) := by
  intro f
  induction f with
  | zero => intro pos h; omega
  | succ f ih =>
    intro pos h
    by_cases hp : pos > s.length
    · rw [findAllAux_nil hp, List.drop_eq_nil_of_le (by omega)]
      rfl
    · by_cases hpe : pos = s.length
      · have hca : codeAt s pos = none := by
          unfold codeAt
          rw [List.get?_eq_none.mpr (by omega)]
          rfl
        simp only [findAllAux, if_neg hp, matchAt_cls, hca]
        rw [findAllAux_nil (by omega), List.drop_eq_nil_of_le (by omega)]
        rfl
      · have hlt : pos < s.length := by omega
        obtain ⟨c, hgc⟩ : ∃ c, s.get? pos = some c := by
          cases hg : s.get? pos with
          | none => rw [List.get?_eq_none] at hg; omega
          | some c => exact ⟨c, rfl⟩
        have hca : codeAt s pos = some c.toNat := by
          unfold codeAt
          rw [hgc]
          rfl
        have hdrop : s.drop pos = c :: s.drop (pos + 1) := by
          have h1 : s[pos]? = some c := by rw [← List.get?_eq_getElem?]; exact hgc
          rw [List.getElem?_eq_getElem hlt] at h1
          injection h1 with h1
          rw [List.drop_eq_getElem_cons hlt, h1]
        simp only [findAllAux, if_neg hp, matchAt_cls, hca]
        by_cases hin : inCls neg items c.toNat = true
        · simp only [if_pos hin, if_pos (Nat.lt_succ_self pos)]
          rw [ih (pos + 1) (by omega), hdrop]
          simp [hin]
        · simp only [if_neg hin]
          rw [ih (pos + 1) (by omega), hdrop]
          simp [hin]

/-- `findAll` of a class rule: every character of the class, as a
one-character string, in order. -/
theorem findAll_cls (neg : Bool) (items : List ClassItem) (s : List Char) :
    findAll (.cls neg items) (String.mk s) =
      (s.filter (fun c => inCls neg items c.toNat)).map (fun c => String.mk [c]) := by
  unfold findAll
  rw [show (String.mk s).data = s from rfl,
    findAllAux_cls neg items s (s.length + 2) 0 (by omega)]
  simp [List.map_map, Function.comp]

/-- The character data of a joined string list is the joined character
data. -/
theorem join_data (l : List String) : (String.join l).data = (l.map String.data).join := by
  unfold String.join
  suffices h : ∀ acc : String, (l.foldl (· ++ ·) acc).data = acc.data ++ (l.map String.data).join by
    simpa using h ""
  induction l with
  | nil => intro acc; simp
  | cons s rest ih => intro acc; simp [ih, List.append_assoc]

/-- Joining one-character strings rebuilds the original string. -/
theorem joinSingles (l : List Char) :
    String.join (l.map (fun c => String.mk [c])) = String.mk l := by
  apply String.ext
  rw [join_data]
  simp [List.map_map, Function.comp]
  induction l with
  | nil => rfl
  | cons c cs ih => simpa using ih

/-!
Behaviour of the pattern loop when every rule produced no match, and
character-level facts about the Arabic language rule.
-/

/-- The twenty `patts` labels, each with an empty match list. -/
def emptyPatts : List (String × List String) :=
  [("ARCHIVE", []), ("BINARY", []), ("BTC", []), ("DOMAIN", []), ("EMAIL", []),
   ("ENVIRONMENT VARIABLE", []), ("MISC FILE", []), ("IMAGE", []), ("IPV4", []),
   ("GEOLOCATION", []), ("MAC", []), ("MD5", []), ("OFFICE/PDF", []), ("PHONE", []),
   ("SCRIPT", []), ("SHA1", []), ("SHA256", []), ("URL", []), ("WEB FILE", []),
   ("WIN DIR", [])]

/-- Running the loop over twenty empty match lists records twenty empty
sets and performs exactly one net counter change: the `-1` of the empty
`DOMAIN` category (no TLDs file access happens, so no exception). -/
theorem foldKeys_emptyPatts (file : Option (List String)) (c : Int)
    (res : List (String × List String)) :
    PDFWorker.foldKeys file emptyPatts (c, res) = .ok (c - 1, res ++ emptyPatts) := by
  simp [emptyPatts, PDFWorker.foldKeys, PDFWorker.stepKey, PDFWorker.process_domains,
    sortLex, List.insertionSort]
  omega

/-- Characters of the Arabic Unicode block (the block the `arabic` rule
is built from). -/
def isArabicChar (c : Char) : Bool := 0x600 ≤ c.toNat ∧ c.toNat ≤ 0x6FF

/-- Python `str.lower` leaves Arabic-block characters unchanged. -/
theorem pyLowerChar_arabic {c : Char} (h : isArabicChar c = true) : pyLowerChar c = c := by
  simp only [isArabicChar, decide_eq_true_eq] at h
  unfold pyLowerChar
  rw [if_neg (by omega), if_neg (by omega), if_neg (by omega)]

/-- An Arabic-block character is accepted by the `arabic` (and `farsi`)
rule's class. -/
theorem arabic_cls_has {c : Char} (h : isArabicChar c = true) :
    inCls false [ClassItem.range 0x600 0x6FF, .range 0x698 0x698, .range 0x67E 0x67E,
      .range 0x686 0x686, .range 0x6AF 0x6AF] c.toNat = true := by
  simp only [isArabicChar, decide_eq_true_eq] at h
  simp [inCls, itemHas]
  omega

/-- An Arabic-block character is rejected by the `cyrillic` rule's
class. -/
theorem cyrillic_cls_not {c : Char} (h : isArabicChar c = true) :
    inCls false [ClassItem.range 0x400 0x4FF] c.toNat = false := by
  simp only [isArabicChar, decide_eq_true_eq] at h
  simp [inCls, itemHas]
  omega

/-- An Arabic-block character is rejected by the `kanji` rule's class. -/
theorem kanji_cls_not {c : Char} (h : isArabicChar c = true) :
    inCls false [ClassItem.range 0x4E00 0x9FFF, .range 0x3400 0x4DBF,
      .range 0xF900 0xFAFF] c.toNat = false := by
  simp only [isArabicChar, decide_eq_true_eq] at h
  simp [inCls, itemHas]
  omega

/-- An Arabic-block character is rejected by the `chinese` rule's
class. -/
theorem chinese_cls_not {c : Char} (h : isArabicChar c = true) :
    inCls false [ClassItem.range 0x4E00 0x9FFF] c.toNat = false := by
  simp only [isArabicChar, decide_eq_true_eq] at h
  simp [inCls, itemHas]
  omega

/-- An Arabic-block character is rejected by the `hebrew` rule's
class. -/
theorem hebrew_cls_not {c : Char} (h : isArabicChar c = true) :
    inCls false [ClassItem.range 0x590 0x5FF, .range 0xFB2A 0xFB4E] c.toNat = false := by
  simp only [isArabicChar, decide_eq_true_eq] at h
  simp [inCls, itemHas]
  omega

/-- Classification of a non-empty Arabic-block-only text on which no
general-indicator rule matches: the ARABIC and FARSI labels both report
the whole text (their rules are identical), every category set is
empty, and the final counter is `2 - 1 = 1` (two language increments,
then the decrement of the empty DOMAIN category), so the "no IOCs"
signal does not fire. -/
theorem classify_arabic_only (file : Option (List String)) (text : String)
    (hne : text ≠ "")
    (harab : ∀ c ∈ text.data, isArabicChar c = true)
    (hgen : Helpers.patts text = emptyPatts) :
    PDFWorker.classify file text =
      .ok { langResults := [("ARABIC", text), ("FARSI", text)],
            results := emptyPatts, counter := 1, noIOCs := false } := by
  have hlow : pyLower text = text := by
    unfold pyLower
    rw [mapSelf (fun c hc => pyLowerChar_arabic (harab c hc))]
  have hfar : findAll Patterns.arabic (pyLower text) =
      text.data.map (fun c => String.mk [c]) := by
    rw [hlow]
    have h1 := findAll_cls false [ClassItem.range 0x600 0x6FF, .range 0x698 0x698,
      .range 0x67E 0x67E, .range 0x686 0x686, .range 0x6AF 0x6AF] text.data
    rw [List.filter_eq_self.mpr (fun c hc => arabic_cls_has (harab c hc))] at h1
    exact h1
  have hfcy : findAll Patterns.cyrillic (pyLower text) = [] := by
    rw [hlow]
    have h1 := findAll_cls false [ClassItem.range 0x400 0x4FF] text.data
    rw [List.filter_eq_nil.mpr (fun c hc => by simp [cyrillic_cls_not (harab c hc)])] at h1
    exact h1
  have hfka : findAll Patterns.kanji (pyLower text) = [] := by
    rw [hlow]
    have h1 := findAll_cls false [ClassItem.range 0x4E00 0x9FFF, .range 0x3400 0x4DBF,
      .range 0xF900 0xFAFF] text.data
    rw [List.filter_eq_nil.mpr (fun c hc => by simp [kanji_cls_not (harab c hc)])] at h1
    exact h1
  have hfch : findAll Patterns.chinese (pyLower text) = [] := by
    rw [hlow]
    have h1 := findAll_cls false [ClassItem.range 0x4E00 0x9FFF] text.data
    rw [List.filter_eq_nil.mpr (fun c hc => by simp [chinese_cls_not (harab c hc)])] at h1
    exact h1
  have hfhe : findAll Patterns.hebrew (pyLower text) = [] := by
    rw [hlow]
    have h1 := findAll_cls false [ClassItem.range 0x590 0x5FF, .range 0xFB2A 0xFB4E] text.data
    rw [List.filter_eq_nil.mpr (fun c hc => by simp [hebrew_cls_not (harab c hc)])] at h1
    exact h1
  have hdl : Helpers.detect_languageT Helpers.regex text =
      [("KANJI", []),
       ("ARABIC", text.data.map (fun c => String.mk [c])),
       ("CHINESE", []),
       ("FARSI", text.data.map (fun c => String.mk [c])),
       ("CYRILLIC", []),
       ("HEBREW", []),
       ("HAN", findAll Patterns.han_unification (pyLower text)),
       ("DEVANAGARI", findAll Patterns.devanagari (pyLower text))] := by
    show [("KANJI", findAll Patterns.kanji (pyLower text)),
          ("ARABIC", findAll Patterns.arabic (pyLower text)),
          ("CHINESE", findAll Patterns.chinese (pyLower text)),
          ("FARSI", findAll Patterns.farsi (pyLower text)),
          ("CYRILLIC", findAll Patterns.cyrillic (pyLower text)),
          ("HEBREW", findAll Patterns.hebrew (pyLower text)),
          ("HAN", findAll Patterns.han_unification (pyLower text)),
          ("DEVANAGARI", findAll Patterns.devanagari (pyLower text))] = _
    rw [hfka, hfch, hfcy, hfhe]
    rw [show Patterns.farsi = Patterns.arabic from rfl, hfar]
  have hjoin : String.join (text.data.map (fun c => String.mk [c])) = text :=
    joinSingles text.data
  have hlang : PDFWorker.langResultsT Helpers.regex text =
      [("ARABIC", text), ("FARSI", text)] := by
    unfold PDFWorker.langResultsT PDFWorker.languages
    rw [hdl]
    have hb : (text != "") = true := bne_iff_ne.mpr hne
    have hj0 : String.join ([] : List String) = "" := rfl
    simp [lookupL, hjoin, hj0, hb]
  have hgen2 : Helpers.pattsT Helpers.regex text = emptyPatts := hgen
  unfold PDFWorker.classify PDFWorker.classifyT
  rw [hgen2, hlang, show (([("ARABIC", text), ("FARSI", text)] :
    List (String × String)).length : Int) = (2 : Int) from rfl, foldKeys_emptyPatts]
  norm_num

/-!
Remaining infrastructure for the claims: decidable equality of run
outcomes, and the registry-invariance machinery for the dormant rules.
-/

deriving instance DecidableEq for Except

/-- The registry entries that `Helpers.patts` and the language loop of
`PDFWorker.detect_language` never use. -/
def dormantRules : List (String × String) :=
  [("pii", "ssn"), ("pii", "cc"), ("pii", "address"), ("pii", "po_box"),
   ("pii", "zip_code"), ("misc", "base64"), ("hashes", "sha512")]

/-- `patts` reads the registry only at non-dormant keys. -/
theorem pattsT_congr {tbl : String → String → Option RE}
    (h : ∀ c n, (c, n) ∉ dormantRules → tbl c n = Helpers.regex c n) (text : String) :
    Helpers.pattsT tbl text = Helpers.pattsT Helpers.regex text := by
  unfold Helpers.pattsT Helpers.reOf
  rw [h "file-related" "archive" (by decide), h "file-related" "binary" (by decide),
    h "misc" "btc" (by decide), h "web-related" "domain" (by decide),
    h "web-related" "email" (by decide), h "file-related" "env_var" (by decide),
    h "file-related" "misc_file" (by decide), h "file-related" "image" (by decide),
    h "net-related" "ipv4" (by decide), h "misc" "geolocation" (by decide),
    h "net-related" "mac" (by decide), h "hashes" "md5" (by decide),
    h "file-related" "office" (by decide), h "pii" "phone" (by decide),
    h "file-related" "script" (by decide), h "hashes" "sha1" (by decide),
    h "hashes" "sha256" (by decide), h "web-related" "url" (by decide),
    h "web-related" "webfile" (by decide), h "file-related" "windir" (by decide)]

/-- `detect_language` reads the registry only at non-dormant keys. -/
theorem detectT_congr {tbl : String → String → Option RE}
    (h : ∀ c n, (c, n) ∉ dormantRules → tbl c n = Helpers.regex c n) (text : String) :
    Helpers.detect_languageT tbl text = Helpers.detect_languageT Helpers.regex text := by
  unfold Helpers.detect_languageT Helpers.reOf
  rw [h "languages" "kanji" (by decide), h "languages" "arabic" (by decide),
    h "languages" "chinese" (by decide), h "languages" "farsi" (by decide),
    h "languages" "cyrillic" (by decide), h "languages" "hebrew" (by decide),
    h "languages" "han-unification" (by decide), h "languages" "devanagari" (by decide)]

/-!
The claims.
-/

set_option maxRecDepth 100000 in
/-- Claim C1 (code evaluation at the failing input): on the single
Cyrillic character "ф" the final Counter is 0 and the "no IOCs found"
signal fires, even though the CYRILLIC script label reports the
non-empty result "ф" — the counter/result biconditional the claim
states does not hold on the code (the empty DOMAIN category decrements
the Counter it never incremented). -/
theorem claim_C1 : PDFWorker.counterOf (some []) "ф" = 0 ∧
    PDFWorker.noIOCsOf (some []) "ф" = true ∧
    PDFWorker.langResultsOf (some []) "ф" = [("CYRILLIC", "ф")] ∧
    ("ф" : String) ≠ "" := by decide

/-- Claim C2: a candidate is kept by `process_domains` exactly when the
lower-cased part after its last `.` is in the TLD cache set built from
the file and is not in the hard-coded exclusion set; consequently the
filtered set is a subset of the candidate set. -/
theorem claim_C2 : ∀ (lines cands : List String) (d : String),
    (d ∈ PDFWorker.keptDomains lines cands ↔
      d ∈ cands ∧ pyLower (PDFWorker.lastDotSuffix d) ∈ PDFWorker.valid_tlds lines ∧
        pyLower (PDFWorker.lastDotSuffix d) ∉ PDFWorker.excludeTlds) ∧
    (∀ x ∈ PDFWorker.keptDomains lines cands, x ∈ cands) := by
  intro lines cands d
  have hk : PDFWorker.keptDomains lines cands = cands.filter (fun d =>
      (PDFWorker.valid_tlds lines).contains (pyLower (PDFWorker.lastDotSuffix d)) &&
      !(PDFWorker.excludeTlds.contains (pyLower (PDFWorker.lastDotSuffix d)))) := by
    unfold PDFWorker.keptDomains PDFWorker.process_domains
    cases cands with
    | nil => rfl
    | cons a rest => rfl
  rw [hk]
  constructor
  · simp [List.mem_filter, List.contains, List.elem_iff, and_assoc]
  · intro x hx
    exact List.mem_of_mem_filter hx

/-- Claim C2 witness: with a cache holding `com`, the candidate
`a.com` is kept. -/
theorem claim_C2_witness : "a.com" ∈ PDFWorker.keptDomains ["com"] ["a.com"] :=
  ((claim_C2 ["com"] ["a.com"] "a.com").1).mpr ⟨by decide, by decide, by decide⟩

set_option maxRecDepth 100000 in
/-- Claim C3 counterexample: on the text "ab.pdf" the OFFICE/PDF label
has the non-empty deduplicated match set `["ab.pdf"]`, yet processing
that label moves the Counter from 0 to 2 — an increment of exactly 2,
not 1. -/
theorem claim_C3_counterexample :
    sortLex (Helpers.reiter (Helpers.reOf Helpers.regex "file-related" "office")
      "ab.pdf").dedup ≠ [] ∧
    PDFWorker.stepKey (some []) (0, [])
      ("OFFICE/PDF", Helpers.reiter (Helpers.reOf Helpers.regex "file-related" "office")
        "ab.pdf") = .ok (2, [("OFFICE/PDF", ["ab.pdf"])]) := by decide

/-- Claim C3 (amended): when the deduplicated match set for a label is
non-empty, processing that label increments the Counter by exactly 2
(two separate `+1` steps) for every non-DOMAIN label; for the DOMAIN
label the net change is `+2` when the filtered set is still non-empty
and `0` when the filter empties it. -/
theorem claim_C3 : ∀ (file : Option (List String))
    (acc out : Int × List (String × List String)) (kv : String × List String),
    sortLex kv.2.dedup ≠ [] →
    PDFWorker.stepKey file acc kv = .ok out →
    (kv.1 ≠ "DOMAIN" → out.1 = acc.1 + 2) ∧
    (kv.1 = "DOMAIN" →
      ∃ sp2, PDFWorker.process_domains file (sortLex kv.2.dedup) = .ok sp2 ∧
        out.2 = acc.2 ++ [(kv.1, sp2)] ∧
        (sp2 ≠ [] → out.1 = acc.1 + 2) ∧ (sp2 = [] → out.1 = acc.1)) := by
  intro file acc out kv hne h
  simp only [PDFWorker.stepKey] at h
  by_cases hdom : kv.1 = "DOMAIN"
  · rw [if_pos hdom] at h
    cases hd : PDFWorker.process_domains file (sortLex kv.2.dedup) with
    | error e => rw [hd] at h; cases h
    | ok sp2 =>
      rw [hd] at h
      injection h with h
      subst h
      refine ⟨fun hc => absurd hdom hc, fun _ => ⟨sp2, rfl, rfl, fun h2 => ?_, fun h2 => ?_⟩⟩
      · simp [hne, h2]
        all_goals omega
      · simp [hne, h2, hdom]
  · rw [if_neg hdom] at h
    injection h with h
    subst h
    refine ⟨fun _ => ?_, fun hc => absurd hc hdom⟩
    simp [hne, hdom]
    all_goals omega

set_option maxRecDepth 100000 in
/-- Claim C3 witness: the amended statement applied to the OFFICE/PDF
step on the match list of the text "ab.pdf". -/
theorem claim_C3_witness : ((2 : Int), [("OFFICE/PDF", ["ab.pdf"])]).1 = (0 : Int) + 2 :=
  (claim_C3 (some []) (0, []) (2, [("OFFICE/PDF", ["ab.pdf"])])
    ("OFFICE/PDF", Helpers.reiter (Helpers.reOf Helpers.regex "file-related" "office")
      "ab.pdf") (by decide) (by decide)).1 (by decide)

set_option maxRecDepth 100000 in
/-- Claim C4 (code evaluation at the failing input): when the TLDs file
is missing and the download fails, the session still attempts exactly
one download; the text "example.com" produces a non-empty DOMAIN
candidate set, and the classification pipeline aborts with the
(uncaught) file-open error raised by `valid_tlds` — an exception does
propagate, contrary to the claim. -/
theorem claim_C4 :
    Helpers.reiter (Helpers.reOf Helpers.regex "web-related" "domain") "example.com" =
      ["example.com"] ∧
    (PDFWorker.tlds_file ⟨false, [], 0, 0, none⟩ 3).1 = 1 ∧
    PDFWorker.runSession ⟨false, [], 0, 0, none⟩ 3 "example.com" = .error () := by decide

set_option maxRecDepth 100000 in
/-- Claim C5 (code evaluation at the failing input): on the text
"ab.pdf cd.pdf" the OFFICE/PDF category's final set is
`{"ab.pdf", "cd.pdf"}`, and emitting it in the order
`["cd.pdf", "ab.pdf"]` is consistent with the source (which joins a
Python `set`, an arbitrary enumeration) although that order is not
lexicographically ascending — sorted emission is not guaranteed. -/
theorem claim_C5 :
    ("OFFICE/PDF", ["ab.pdf", "cd.pdf"]) ∈ PDFWorker.resultsOf (some []) "ab.pdf cd.pdf" ∧
    IsEmission ["ab.pdf", "cd.pdf"] ["cd.pdf", "ab.pdf"] ∧
    lexSortedB ["cd.pdf", "ab.pdf"] = false := by
  exact ⟨by decide,
    show List.Perm ["cd.pdf", "ab.pdf"] ["ab.pdf", "cd.pdf"] from by decide, by decide⟩

set_option maxRecDepth 100000 in
/-- Claim C6 counterexample: on the upper-case text "AB.PDF" the
OFFICE/PDF category's final set contains "ab.pdf", which does not occur
as a substring of the original input text (matching happened on the
lower-cased text). -/
theorem claim_C6_counterexample :
    ("OFFICE/PDF", ["ab.pdf"]) ∈ PDFWorker.resultsOf (some []) "AB.PDF" ∧
    ¬ (("ab.pdf" : String).data <:+: ("AB.PDF" : String).data) := by decide

/-- Claim C6 (amended): for every input text, every non-DOMAIN
category's final result set is duplicate-free and each of its entries
occurs as a substring of the lower-cased input text. -/
theorem claim_C6 : ∀ (file : Option (List String)) (text key : String) (lst : List String),
    (key, lst) ∈ PDFWorker.resultsOf file text → key ≠ "DOMAIN" →
    lst.Nodup ∧ ∀ x ∈ lst, x.data <:+: (pyLower text).data := by
  intro file text key lst h hkey
  obtain ⟨hnd, hall⟩ := resultsOf_entry h
  refine ⟨hnd, fun x hx => ?_⟩
  obtain ⟨r, _, _, hm⟩ := hall x hx
  exact findAll_infix hm

set_option maxRecDepth 100000 in
/-- Claim C6 witness: the amended statement applied to the OFFICE/PDF
result of the text "AB.PDF". -/
theorem claim_C6_witness :
    (["ab.pdf"] : List String).Nodup ∧
    ∀ x ∈ (["ab.pdf"] : List String), x.data <:+: (pyLower "AB.PDF").data :=
  claim_C6 (some []) "AB.PDF" "OFFICE/PDF" ["ab.pdf"] (by decide) (by decide)

set_option maxRecDepth 100000 in
/-- Claim C7 counterexample: the text "شش" consists only of
Arabic-block characters and matches no general-indicator rule, yet the
run reports the non-empty FARSI entry "شش" in addition to ARABIC (the
two rules are identical) — so it is not the case that all categories
other than ARABIC are empty. -/
theorem claim_C7_counterexample :
    (∀ c ∈ ("شش" : String).data, isArabicChar c = true) ∧
    Helpers.patts "شش" = emptyPatts ∧
    ("FARSI", "شش") ∈ PDFWorker.langResultsOf (some []) "شش" ∧
    ("شش" : String) ≠ "" := by decide

/-- Claim C7 (amended): for every non-empty input text consisting only
of Arabic-block characters and matching no general-indicator rule,
classification reports the whole text under both the ARABIC and the
FARSI script labels (their rules are identical), every general category
result is empty, the Counter ends at exactly 1 (two script increments
followed by the decrement of the empty DOMAIN category), and the
"no indicators found" signal is not emitted. -/
theorem claim_C7 : ∀ (file : Option (List String)) (text : String),
    text ≠ "" →
    (∀ c ∈ text.data, isArabicChar c = true) →
    Helpers.patts text = emptyPatts →
    PDFWorker.classify file text =
      .ok { langResults := [("ARABIC", text), ("FARSI", text)],
            results := emptyPatts, counter := 1, noIOCs := false } := by
  intro file text hne harab hgen
  exact classify_arabic_only file text hne harab hgen

set_option maxRecDepth 100000 in
/-- Claim C7 witness: the amended statement applied to the text "شش". -/
theorem claim_C7_witness :
    PDFWorker.classify (some []) "شش" =
      .ok { langResults := [("ARABIC", "شش"), ("FARSI", "شش")],
            results := emptyPatts, counter := 1, noIOCs := false } :=
  claim_C7 (some []) "شش" (by decide) (by decide) (by decide)

/-- Claim C8: if the TLDs file exists and its modification time is
strictly older than the age limit, the freshness check performs exactly
one download attempt; if the file is within the limit, it performs
none. -/
theorem claim_C8 : ∀ (w : PDFWorker.TldsWorld) (days : Int),
    w.fileExists = true →
    (w.now - w.mtime > days * 86400 → (PDFWorker.tlds_file w days).1 = 1) ∧
    (w.now - w.mtime ≤ days * 86400 → (PDFWorker.tlds_file w days).1 = 0) := by
  intro w days hex
  unfold PDFWorker.tlds_file PDFWorker.check_tlds_file_age
  rw [if_pos hex]
  constructor
  · intro hold
    rw [if_pos hold]
  · intro hfresh
    rw [if_neg (by omega)]

/-- Claim C8 witness: a ten-day-old file triggers one attempt, a fresh
file none (age limit three days). -/
theorem claim_C8_witness :
    (PDFWorker.tlds_file ⟨true, [], 0, 864000, none⟩ 3).1 = 1 ∧
    (PDFWorker.tlds_file ⟨true, [], 0, 3600, none⟩ 3).1 = 0 :=
  ⟨(claim_C8 ⟨true, [], 0, 864000, none⟩ 3 rfl).1 (by norm_num),
   (claim_C8 ⟨true, [], 0, 3600, none⟩ 3 rfl).2 (by norm_num)⟩

/-- Claim C9: no rule of `Helpers.patts` can produce a zero-length or
whitespace-only candidate — filtering them away changes no match list,
so they contribute nothing to any set or to the Counter — and the empty
string never appears in any category's final result set. -/
theorem claim_C9 : ∀ (file : Option (List String)) (text : String),
    ((Helpers.patts text).map (fun kv => (kv.1, kv.2.filter
      (fun s => (s != "") && s.data.any (fun c => !isSpaceCode c.toNat)))) =
      Helpers.patts text) ∧
    ∀ key lst, (key, lst) ∈ PDFWorker.resultsOf file text → "" ∉ lst := by
  intro file text
  constructor
  · apply mapSelf
    intro kv hkv
    obtain ⟨r, hr, hmin, hns⟩ := patts_spec kv hkv
    have hfe : kv.2.filter
        (fun s => (s != "") && s.data.any (fun c => !isSpaceCode c.toNat)) = kv.2 := by
      apply List.filter_eq_self.mpr
      intro x hx
      rw [hr] at hx
      have h1 : (x != "") = true := bne_iff_ne.mpr (findAll_ne_empty hmin hx)
      obtain ⟨c, hc, hcs⟩ := findAll_nonspace hns hx
      have h2 : x.data.any (fun c => !isSpaceCode c.toNat) = true :=
        List.any_eq_true.mpr ⟨c, hc, by simp [hcs]⟩
      simp [h1, h2]
    cases kv with
    | mk k l => simpa using hfe
  · intro key lst h hmem
    obtain ⟨_, hall⟩ := resultsOf_entry h
    obtain ⟨r, hmin, _, hm⟩ := hall "" hmem
    exact findAll_ne_empty hmin hm rfl

set_option maxRecDepth 100000 in
/-- Claim C9 witness: applied to the OFFICE/PDF result of "ab.pdf". -/
theorem claim_C9_witness : "" ∉ (["ab.pdf"] : List String) :=
  (claim_C9 (some []) "ab.pdf").2 "OFFICE/PDF" ["ab.pdf"] (by decide)

set_option maxRecDepth 100000 in
/-- Claim C10: the registry contains the rules ssn, cc, address,
po_box, zip_code (pii), base64 (misc) and sha512 (hashes), yet the
classification pipeline never reads them: replacing those registry
entries by anything whatsoever leaves every classification outcome
(all result sets and the Counter) unchanged, for every input text and
file state. -/
theorem claim_C10 :
    (∀ p ∈ dormantRules, (Helpers.regex p.1 p.2).isSome = true) ∧
    ∀ (tbl : String → String → Option RE),
      (∀ c n, (c, n) ∉ dormantRules → tbl c n = Helpers.regex c n) →
      ∀ (file : Option (List String)) (text : String),
        PDFWorker.classifyT tbl file text = PDFWorker.classify file text := by
  constructor
  · decide
  · intro tbl h file text
    unfold PDFWorker.classify PDFWorker.classifyT PDFWorker.langResultsT
    rw [pattsT_congr h, detectT_congr h]

/-- Claim C10 witness: erasing the dormant entries outright leaves a
concrete run unchanged. -/
theorem claim_C10_witness :
    PDFWorker.classifyT
      (fun c n => if (c, n) ∈ dormantRules then none else Helpers.regex c n)
      (some []) "ab.pdf" = PDFWorker.classify (some []) "ab.pdf" :=
  claim_C10.2 _ (fun c n hcn => if_neg hcn) (some []) "ab.pdf"
